import Mathlib

/-!
Verification of the procurement document-checklist core
(OlegKarenkikh/Purchase): shallow embedding of the deduplication,
similarity, verification, parsing and multi-stage-control code, together
with theorems settling the frozen specification claims.

Modelling conventions:
* Python `dict` records become Lean structures whose optional keys are
  `Option` fields (`none` = key absent).
* Python floats are modelled as exact rationals `ℚ`; `int(x)` on a
  non-negative quotient is floor, i.e. `Nat` division.
* External collaborators (the LLM response, `json.loads`, the file
  system, wall-clock timestamps) are parameters of the embedded
  functions; the repository code never inspects them beyond the
  modelled interface.
* A Python function that can raise is embedded as `Except`.
-/

namespace Purchase

/-! ### Python string primitives (`str.lower`, `str.strip`, `re` fragments)

Python's `str.lower`/`\s`/`\w` are Unicode-aware.  The repository's data
is ASCII plus Cyrillic, so the character tables below cover exactly the
ASCII range and the Cyrillic block U+0400–U+04FF, which is faithful on
every string the repository manipulates. -/

/-- Python `\s` (whitespace) for the ASCII range. -/
def pyIsSpace (c : Char) : Bool :=
  c = ' ' || c = '\t' || c = '\n' || c = '\r' || c = '\x0b' || c = '\x0c'

/-- Python `str.lower` on one character (ASCII + Cyrillic А–Я, Ё). -/
def pyLowerChar (c : Char) : Char :=
  if 'A' ≤ c ∧ c ≤ 'Z' then Char.ofNat (c.toNat + 32)
  else if 0x410 ≤ c.toNat ∧ c.toNat ≤ 0x42F then Char.ofNat (c.toNat + 0x20)
  else if c.toNat = 0x401 then Char.ofNat 0x451
  else c

/-- Python `str.lower`. -/
def pyLower (s : String) : String := String.mk (s.toList.map pyLowerChar)

/-- Python `str.strip()` on a character list. -/
def pyStripList (l : List Char) : List Char :=
  ((l.dropWhile pyIsSpace).reverse.dropWhile pyIsSpace).reverse

/-- Python `str.strip()`. -/
def pyStrip (s : String) : String := String.mk (pyStripList s.toList)

/-- Python `re.sub(r'\s+', ' ', s)`: each maximal whitespace run becomes
one space. -/
def collapseWsList : List Char → List Char
  | [] => []
  | [c] => if pyIsSpace c then [' '] else [c]
  | c :: d :: cs =>
    if pyIsSpace c && pyIsSpace d then collapseWsList (d :: cs)
    else (if pyIsSpace c then ' ' else c) :: collapseWsList (d :: cs)

/-- Python `\w` (word character) for ASCII + the Cyrillic block. -/
def pyIsWordChar (c : Char) : Bool :=
  c.isAlphanum || c = '_' || (0x400 ≤ c.toNat && c.toNat ≤ 0x4FF)

/-- Characters kept by the punctuation-removing substitution: word
characters, whitespace, hyphen and slash; every other character is
deleted. -/
def pyKeepChar (c : Char) : Bool :=
  pyIsWordChar c || pyIsSpace c || c = '-' || c = '/'

/-- Python `str.split()` (whitespace split, empty fields dropped):
accumulator-based tokenizer. -/
def pyWordsAux : List Char → List Char → List (List Char)
  | [], acc => if acc.isEmpty then [] else [acc.reverse]
  | c :: cs, acc =>
    if pyIsSpace c then
      if acc.isEmpty then pyWordsAux cs [] else acc.reverse :: pyWordsAux cs []
    else pyWordsAux cs (c :: acc)

/-- Python `str.split()` returning the word list as strings. -/
def pyWords (s : String) : List String :=
  (pyWordsAux s.toList []).map String.mk

/-- Python `needle in haystack` for strings (contiguous substring). -/
def pyContains (needle haystack : String) : Bool :=
  decide (needle.toList <:+: haystack.toList)

/-- Drop a literal pattern from the front of a list, if it is there. -/
def dropPat : List Char → List Char → Option (List Char)
  | [], s => some s
  | _ :: _, [] => none
  | p :: ps, c :: cs => if p = c then dropPat ps cs else none

/-- Whether a literal pattern starts the list. -/
def hasPat (pat s : List Char) : Bool := (dropPat pat s).isSome

/-! ### `DocumentDeduplicator.normalize_name` (src/backend/utils/deduplication.py)

The final step of `normalize_name` applies four substitutions of the form
`re.sub(r'\bW1\s+W2\s+', 'R', s)`.  `matchPair` recognises one occurrence
of `W1 \s+ W2 \s+` (the `\b` is checked by the caller), returning the
rest of the input after the greedy trailing whitespace. -/

def matchPair (w1 w2 s : List Char) : Option (List Char) := do
  let s1 ← dropPat w1 s
  match s1 with
  | c :: _ =>
    if pyIsSpace c then
      let s2 := s1.dropWhile pyIsSpace
      let s3 ← dropPat w2 s2
      match s3 with
      | d :: _ => if pyIsSpace d then some (s3.dropWhile pyIsSpace) else none
      | [] => none
    else none
  | [] => none

/-- One `re.sub(r'\bW1\s+W2\s+', R, s)` pass: left-to-right scan,
non-overlapping matches, `prevIsWord` tracks the `\b` word boundary.
Fuel-based recursion (a match consumes at least one character). -/
def subPairAux (w1 w2 repl : List Char) : Nat → Bool → List Char → List Char
  | 0, _, s => s
  | _ + 1, _, [] => []
  | fuel + 1, prevIsWord, c :: cs =>
    match (if prevIsWord then none else matchPair w1 w2 (c :: cs)) with
    | some rest => repl ++ subPairAux w1 w2 repl fuel false rest
    | none => c :: subPairAux w1 w2 repl fuel (pyIsWordChar c) cs

def subPair (w1 w2 repl : String) (s : List Char) : List Char :=
  subPairAux w1.toList w2.toList repl.toList (s.length + 1) false s

/-- `DocumentDeduplicator.normalize_name`: lower-case, strip, collapse
whitespace, drop punctuation except `-` and `/`, then canonicalise the
four Russian legal phrasings. -/
def normalize_name (name : String) : String :=
  if name = "" then ""
  else
    let n := pyStripList (pyLower name).toList
    let n := collapseWsList n
    let n := n.filter pyKeepChar
    let n := subPair "справка" "о" "справка_" n
    let n := subPair "выписка" "из" "выписка_" n
    let n := subPair "сведения" "о" "сведения_" n
    let n := subPair "договор" "нр" "договор_" n
    String.mk n

/-! ### `DocumentDeduplicator.calculate_similarity` (Jaccard index) -/

/-- Word set of a string, as a `Finset`. -/
def wordSet (s : String) : Finset String := (pyWords s).toFinset

/-- `DocumentDeduplicator.calculate_similarity`: Jaccard index of the
whitespace-token sets, `0` when either string is empty or the union of
the token sets is empty. -/
def calculate_similarity (str1 str2 : String) : ℚ :=
  if str1 = "" ∨ str2 = "" then 0
  else if 0 < (wordSet str1 ∪ wordSet str2).card then
    ((wordSet str1 ∩ wordSet str2).card : ℚ) / ((wordSet str1 ∪ wordSet str2).card : ℚ)
  else 0

/-! ### Record types

A requirement / document record is a Python dict; optional keys are
`Option` fields and `extra` stands for any further key–value pairs the
code carries through untouched. -/

structure PyDoc where
  name : Option String := none
  id : Option String := none
  mandatory : Option Bool := none
  format : Option String := none
  validity : Option String := none
  source_reference : Option String := none
  file_path : Option String := none
  status : Option String := none
  extra : List (String × String) := []
deriving Repr, DecidableEq

/-- An element of a Python list that is expected to hold dict records
but may hold anything else (`other`), as exercised by the tests. -/
inductive PyEntry where
  | obj (d : PyDoc)
  | other
deriving Repr, DecidableEq

/-- `doc.get("name", "")`. -/
def PyDoc.getName (d : PyDoc) : String := d.name.getD ""

/-! ### `DocumentDeduplicator.is_duplicate` and `deduplicate`
(src/src/backend/utils/deduplication.py) -/

/-- `DocumentDeduplicator.is_duplicate`: exact match of the normalized
names, or Jaccard similarity at least the threshold. -/
def isDuplicate (θ : ℚ) (doc1 doc2 : PyDoc) : Bool :=
  let name1 := normalize_name doc1.getName
  let name2 := normalize_name doc2.getName
  name1 = name2 || calculate_similarity name1 name2 ≥ θ

/-- The running statistics dict of a `DocumentDeduplicator` instance. -/
structure DedupStats where
  total_input : Nat := 0
  duplicates_removed : Nat := 0
  total_output : Nat := 0
  truncated_by_limit : Bool := false
deriving Repr, DecidableEq

/-- The stats dict as `__init__` leaves it. -/
def initStats : DedupStats := {}

/-- `DocumentDeduplicator.MAX_DOCUMENTS`. -/
def MAX_DOCUMENTS : Nat := 50

/-- The analysis dict handed to `DocumentDeduplicator.deduplicate`:
the `required_documents` list, the `deduplication_stats` key (absent
until `deduplicate` writes it) and the remaining keys, carried through
untouched. -/
structure JAnalysis where
  required_documents : List PyDoc := []
  deduplication_stats : Option DedupStats := none
  extra : List (String × String) := []
deriving Repr, DecidableEq

/-- The main loop of `DocumentDeduplicator.deduplicate`: `acc` is
`unique_docs`, `seen` the set of already-seen normalized names (kept in
insertion order), `stats` the instance statistics. -/
def dedupLoop (θ : ℚ) : List PyDoc → List PyDoc → List String → DedupStats →
    List PyDoc × DedupStats
  | [], acc, _, stats => (acc, stats)
  | doc :: docs, acc, seen, stats =>
    if MAX_DOCUMENTS ≤ acc.length then
      (acc, { stats with truncated_by_limit := true })
    else
      let n := normalize_name doc.getName
      if n = "" then dedupLoop θ docs acc seen stats
      else if n ∈ seen then
        dedupLoop θ docs acc seen
          { stats with duplicates_removed := stats.duplicates_removed + 1 }
      else if acc.any (fun u => isDuplicate θ doc u) then
        dedupLoop θ docs acc seen
          { stats with duplicates_removed := stats.duplicates_removed + 1 }
      else dedupLoop θ docs (acc ++ [doc]) (seen ++ [n]) stats

/-- The id-renumbering pass `for idx, doc in enumerate(unique_docs, 1):
doc["id"] = f"doc_{idx}"`, generalised over the starting index. -/
def renumberFrom (k : Nat) : List PyDoc → List PyDoc
  | [] => []
  | d :: ds => { d with id := some ("doc_" ++ toString k) } :: renumberFrom (k + 1) ds

/-- `DocumentDeduplicator.deduplicate`.  `stats0` is the instance's
statistics state before the call (a fresh instance has `initStats`);
when the input list is empty (or the key is absent) the analysis dict is
returned unchanged and no statistics key is written. -/
def deduplicate (θ : ℚ) (stats0 : DedupStats) (analysis : JAnalysis) : JAnalysis :=
  let documents := analysis.required_documents
  let stats1 := { stats0 with total_input := documents.length }
  if documents.isEmpty then analysis
  else
    let (uniq, stats2) := dedupLoop θ documents [] [] stats1
    let uniq := renumberFrom 1 uniq
    let stats3 := { stats2 with total_output := uniq.length }
    { analysis with required_documents := uniq, deduplication_stats := some stats3 }

/-! ### difflib `SequenceMatcher.ratio` (used by
`DocumentAnalyzer._deduplicate_documents`)

For `isjunk=None` and sequences shorter than 200 characters (no autojunk),
`find_longest_match` returns the longest common contiguous block,
ties broken towards the smallest index in `a`, then in `b`, and
`ratio()` is `2*M/T` where `M` sums the block sizes of the recursive
matching-block decomposition and `T` the two lengths (`1` when both are
empty). -/

/-- Length of the common run at the heads of the two lists. -/
def runLen : List Char → List Char → Nat
  | x :: xs, y :: ys => if x = y then runLen xs ys + 1 else 0
  | _, _ => 0

/-- Inner scan of `find_longest_match`: walk the suffixes of `b` at
ascending `j`, keeping the best `(bi, bj, bk)` seen so far; only a
strictly longer run replaces it. -/
def flmRow (asuf : List Char) : List Char → Nat → Nat → Nat → Nat → Nat →
    Nat × Nat × Nat
  | [], _, _, bi, bj, bk => (bi, bj, bk)
  | bsuf@(_ :: btl), i, j, bi, bj, bk =>
    if bk < runLen asuf bsuf then flmRow asuf btl i (j + 1) i j (runLen asuf bsuf)
    else flmRow asuf btl i (j + 1) bi bj bk

/-- Outer scan of `find_longest_match`: the suffixes of `a` at
ascending `i`. -/
def flmGo (b : List Char) : List Char → Nat → Nat × Nat × Nat → Nat × Nat × Nat
  | [], _, best => best
  | asuf@(_ :: atl), i, best =>
    flmGo b atl (i + 1) (flmRow asuf b i 0 best.1 best.2.1 best.2.2)

/-- `find_longest_match` over whole sequences: the `(i, j, size)` triple
maximising the run length, earliest `i` then `j` winning ties (difflib's
strict-improvement update order). -/
def findLongest (a b : List Char) : Nat × Nat × Nat := flmGo b a 0 (0, 0, 0)

/-- Total matched size of the recursive matching-block decomposition
(`get_matching_blocks`), fuel-based: each recursive call strictly
shrinks the combined length. -/
def matchTotal : Nat → List Char → List Char → Nat
  | 0, _, _ => 0
  | fuel + 1, a, b =>
    let (i, j, k) := findLongest a b
    if k = 0 then 0
    else
      matchTotal fuel (a.take i) (b.take j) + k +
        matchTotal fuel (a.drop (i + k)) (b.drop (j + k))

/-- `difflib.SequenceMatcher(None, a, b).ratio()` as an exact rational. -/
def seqMatchScore (a b : String) : ℚ :=
  let la := a.toList
  let lb := b.toList
  let t := la.length + lb.length
  if t = 0 then 1
  else (2 * matchTotal (t + 1) la lb : ℚ) / (t : ℚ)

/-! ### `DocumentAnalyzer._deduplicate_documents` (src/src/analyzer.py)

Identical in src/src/analyzer.py and src/backend/analyzer.py: skips
non-dict entries and entries without a `name` key, normalizes by
lower/strip/collapse-whitespace only, drops exact matches and names with
`SequenceMatcher` ratio strictly above the 0.85 threshold, and does not
renumber ids. -/

/-- `SIMILARITY_THRESHOLD` of `DocumentAnalyzer`. -/
def SIMILARITY_THRESHOLD : ℚ := 17 / 20

/-- The analyzer's name normalization: `doc["name"].lower().strip()`
followed by whitespace collapse. -/
def normalizeAnalyzer (s : String) : String :=
  String.mk (collapseWsList (pyStripList (pyLower s).toList))

/-- Loop of `_deduplicate_documents`: `seen` holds the normalized names
of the accepted records in insertion order (the dict's key view). -/
def dedupAnalyzerLoop : List PyEntry → List PyDoc → List String → List PyDoc
  | [], acc, _ => acc
  | .other :: rest, acc, seen => dedupAnalyzerLoop rest acc seen
  | .obj d :: rest, acc, seen =>
    match d.name with
    | none => dedupAnalyzerLoop rest acc seen
    | some nm =>
      let n := normalizeAnalyzer nm
      if n = "" then dedupAnalyzerLoop rest acc seen
      else if n ∈ seen then dedupAnalyzerLoop rest acc seen
      else if seen.any (fun ex => SIMILARITY_THRESHOLD < seqMatchScore n ex) then
        dedupAnalyzerLoop rest acc seen
      else dedupAnalyzerLoop rest (acc ++ [d]) (seen ++ [n])

/-- `DocumentAnalyzer._deduplicate_documents`. -/
def dedupAnalyzer (documents : List PyEntry) : List PyDoc :=
  dedupAnalyzerLoop documents [] []

/-! ### `DocumentAnalyzer.verify_documents` (src/src/analyzer.py)

A `KeyError` (record classified as provided but whose dict has no
`name` key, hit at `req_doc["name"]`) is the only exception the function
can raise; it is embedded as `Except.error ()`. -/

/-- One entry of the `provided` result list: `(doc_id, name, status)`. -/
structure ProvidedEntry where
  doc_id : String
  name : String
  status : String
deriving Repr, DecidableEq

structure VerifyResult where
  provided : List ProvidedEntry := []
  missing_critical : List String := []
  missing_optional : List String := []
  completeness_score : Nat := 0
deriving Repr, DecidableEq

/-- Loop state of `verify_documents`. -/
structure VerifyState where
  res : VerifyResult := {}
  total_mandatory : Nat := 0
  matched_mandatory : Nat := 0
deriving Repr, DecidableEq

/-- The `is_provided` test: some provided description (already
lower-cased) contains the lower-cased requirement name as a substring,
or vice versa. -/
def isProvidedName (doc_name : String) (provided_normalized : List String) : Bool :=
  provided_normalized.any fun prov => pyContains doc_name prov || pyContains prov doc_name

/-- One iteration of the `for req_doc in required` loop. -/
def verifyStep (provided_normalized : List String) (st : VerifyState) (req_doc : PyDoc) :
    Except Unit VerifyState := do
  let doc_name := pyLower req_doc.getName
  let is_mandatory := req_doc.mandatory.getD true
  let doc_id := req_doc.id.getD ""
  let total := st.total_mandatory + (if is_mandatory then 1 else 0)
  if isProvidedName doc_name provided_normalized then
    match req_doc.name with
    | none => Except.error ()
    | some nm =>
      pure { st with
        res := { st.res with
          provided := st.res.provided ++ [⟨doc_id, nm, "provided"⟩] }
        total_mandatory := total
        matched_mandatory :=
          st.matched_mandatory + (if is_mandatory then 1 else 0) }
  else if is_mandatory then
    pure { st with
      res := { st.res with
        missing_critical := st.res.missing_critical ++ [doc_id] }
      total_mandatory := total }
  else
    pure { st with
      res := { st.res with
        missing_optional := st.res.missing_optional ++ [doc_id] }
      total_mandatory := total }

/-- `DocumentAnalyzer.verify_documents`.  The final score is
`int(matched_mandatory / total_mandatory * 100)` — floor division on
non-negative values — or `100` when there are no mandatory records. -/
def verify_documents (required : List PyDoc) (provided : List String) :
    Except Unit VerifyResult :=
  let provided_normalized := provided.map pyLower
  match required.foldlM (verifyStep provided_normalized) {} with
  | .error e => .error e
  | .ok st =>
    .ok { st.res with completeness_score :=
      if 0 < st.total_mandatory then
        st.matched_mandatory * 100 / st.total_mandatory
      else 100 }

/-! ### Multi-stage control (src/src/control.py)

Timestamps (`datetime.now().isoformat()` and the entry-id stamp) are
opaque strings produced by the runtime clock; each embedded operation
takes the current stamp `now` as a parameter.  `ChecklistItem.checked_at`
stores the stamp of the marking call. -/

structure ChecklistItem where
  id : String
  description : String
  category : String
  is_automatic : Bool := false
  checked : Bool := false
  checked_by : Option String := none
  checked_at : Option String := none
  comment : String := ""
  severity : String := "normal"
deriving Repr, DecidableEq

/-- `ChecklistItem.mark_checked`. -/
def ChecklistItem.markChecked (item : ChecklistItem) (user : String)
    (comment : String) (now : String) : ChecklistItem :=
  { item with
    checked := true
    checked_by := some user
    checked_at := some now
    comment := comment }

structure Issue where
  severity : String
  message : String
deriving Repr, DecidableEq

structure HistoryEntry where
  entry_id : String
  stage_name : String
  action : String
  user_id : String
  user_name : String
  timestamp : String
  status_before : String
  status_after : String
  comment : String := ""
  attachments : List String := []
  time_spent_minutes : Nat := 0
deriving Repr, DecidableEq

inductive StageKind where
  | automatic
  | legal
  | financial
  | final
deriving Repr, DecidableEq

structure CtrlStage where
  kind : StageKind
  name : String
  status : String := "pending"
  issues : List Issue := []
  checked_at : Option String := none
  checklist : List ChecklistItem
deriving Repr, DecidableEq

/-- Checklist of `AutomaticControl`. -/
def autoChecklist : List ChecklistItem :=
  [ { id := "auto_01", description := "Все обязательные документы предоставлены",
      category := "completeness", is_automatic := true, severity := "critical" },
    { id := "auto_02", description := "Форматы файлов соответствуют требованиям",
      category := "format", is_automatic := true },
    { id := "auto_03", description := "Размеры файлов в пределах лимитов",
      category := "format", is_automatic := true },
    { id := "auto_04", description := "Документы не истекли",
      category := "validity", is_automatic := true, severity := "critical" },
    { id := "auto_05", description := "Отсутствуют вирусы",
      category := "security", is_automatic := true },
    { id := "auto_06", description := "Читаемость текста (для сканов)",
      category := "quality", is_automatic := true },
    { id := "auto_07", description := "Подписи и печати присутствуют (если требуется)",
      category := "signatures", is_automatic := false },
    { id := "auto_08", description := "Реквизиты актуальны",
      category := "requisites", is_automatic := true } ]

/-- Checklist of `LegalControl`. -/
def legalChecklist : List ChecklistItem :=
  [ { id := "legal_01", description := "Соответствие учредительных документов законодательству",
      category := "compliance", severity := "critical" },
    { id := "legal_02", description := "Полномочия подписанта подтверждены",
      category := "authority", severity := "critical" },
    { id := "legal_03", description := "Отсутствие противоречий между документами",
      category := "consistency" },
    { id := "legal_04", description := "Соответствие требованиям закупки",
      category := "compliance", severity := "critical" },
    { id := "legal_05", description := "Корректность формулировок",
      category := "quality" },
    { id := "legal_06", description := "Наличие обязательных реквизитов",
      category := "requisites" },
    { id := "legal_07", description := "Соответствие срокам действия",
      category := "validity" },
    { id := "legal_08", description := "Отсутствие ограничений на участие",
      category := "restrictions", severity := "critical" } ]

/-- Checklist of `FinancialControl`. -/
def financialChecklist : List ChecklistItem :=
  [ { id := "fin_01", description := "Финансовые показатели соответствуют требованиям",
      category := "financial", severity := "critical" },
    { id := "fin_02", description := "Обеспечение заявки предоставлено",
      category := "security" },
    { id := "fin_03", description := "Расчетные счета активны",
      category := "accounts" },
    { id := "fin_04", description := "Отсутствие задолженностей подтверждено",
      category := "debts", severity := "critical" },
    { id := "fin_05", description := "Ценовое предложение корректно",
      category := "pricing", severity := "critical" },
    { id := "fin_06", description := "НДС учтен правильно",
      category := "taxes" },
    { id := "fin_07", description := "Нет признаков демпинга",
      category := "pricing" } ]

/-- Checklist of `FinalControl`. -/
def finalChecklist : List ChecklistItem :=
  [ { id := "final_01", description := "Автоматический контроль пройден",
      category := "stages", severity := "critical" },
    { id := "final_02", description := "Юридический контроль пройден",
      category := "stages", severity := "critical" },
    { id := "final_03", description := "Финансовый контроль пройден",
      category := "stages", severity := "critical" },
    { id := "final_04", description := "Утверждение руководителя получено",
      category := "approval", severity := "critical" } ]

def autoStage : CtrlStage :=
  { kind := .automatic, name := "Автоматический", checklist := autoChecklist }

def legalStage : CtrlStage :=
  { kind := .legal, name := "Юридический", checklist := legalChecklist }

def financialStage : CtrlStage :=
  { kind := .financial, name := "Финансовый", checklist := financialChecklist }

def finalStage : CtrlStage :=
  { kind := .final, name := "Итоговый", checklist := finalChecklist }

/-- The package dict checked by the controller. -/
structure Package where
  documents : List PyDoc := []
  required_documents : List PyDoc := []
deriving Repr, DecidableEq

/-- Python `f"...{doc.get('name')}"`: an absent key prints as `None`. -/
def optStr (o : Option String) : String := o.getD "None"

/-- `AutomaticControl._mark_checklist_item`: marks the first item with
the given id, and only when `checked` is true (it never clears). -/
def markFirst (item_id : String) (checked : Bool) (now : String) :
    List ChecklistItem → List ChecklistItem
  | [] => []
  | it :: rest =>
    if it.id = item_id then
      (if checked then it.markChecked "system" "Автоматическая проверка" now else it) :: rest
    else it :: markFirst item_id checked now rest

/-- `AutomaticControl.FILE_SIZE` ceiling: 50 MiB. -/
def SIZE_LIMIT : Nat := 50 * 1024 * 1024

/-- One iteration of the per-document loop of `AutomaticControl.check`.
`fs` maps a file path to its byte size when the file exists.  State:
`(issues, all_formats_ok, all_sizes_ok, all_valid)`.  A missing path or
file appends a critical issue and skips the size and expiry checks
(`continue`). -/
def autoDocStep (fs : String → Option Nat)
    (acc : List Issue × Bool × Bool × Bool) (doc : PyDoc) :
    List Issue × Bool × Bool × Bool :=
  let (issues, fok, sok, vok) := acc
  let missing :=
    match doc.file_path with
    | none => true
    | some fp => fp = "" || (fs fp).isNone
  if missing then
    (issues ++ [⟨"critical", "Файл не найден: " ++ optStr doc.name⟩], false, sok, vok)
  else
    let size := (doc.file_path.bind fs).getD 0
    let (issues, sok) :=
      if SIZE_LIMIT < size then
        (issues ++ [⟨"warning", "Файл слишком большой: " ++ optStr doc.name⟩], false)
      else (issues, sok)
    let (issues, vok) :=
      if doc.status = some "expired" then
        (issues ++ [⟨"blocker", "Истек срок: " ++ optStr doc.name⟩], false)
      else (issues, vok)
    (issues, fok, sok, vok)

/-- `AutomaticControl.check`. -/
def checkAuto (fs : String → Option Nat) (now : String) (package : Package)
    (st : CtrlStage) : CtrlStage :=
  let docs := package.documents
  let required := package.required_documents
  let short := docs.length < required.length
  let issues0 : List Issue :=
    if short then
      [⟨"blocker", "Недостает документов: " ++ toString (required.length - docs.length)⟩]
    else []
  let cl := if short then st.checklist else markFirst "auto_01" true now st.checklist
  let (issues, fok, sok, vok) := docs.foldl (autoDocStep fs) (issues0, true, true, true)
  let cl := markFirst "auto_02" fok now cl
  let cl := markFirst "auto_03" sok now cl
  let cl := markFirst "auto_04" vok now cl
  let cl := markFirst "auto_05" true now cl
  let cl := markFirst "auto_06" true now cl
  let cl := markFirst "auto_08" true now cl
  let status :=
    if issues.any (fun i => i.severity = "blocker") then "failed"
    else if issues.any (fun i => i.severity = "critical") then "warning"
    else "passed"
  { st with checked_at := some now, issues := issues, checklist := cl, status := status }

/-- `LegalControl.check`: pending while any item is unchecked; once all
are checked, failed when a critical item is unchecked (defensively
unreachable), else passed. -/
def checkLegal (now : String) (st : CtrlStage) : CtrlStage :=
  let unchecked := st.checklist.filter (fun it => !it.checked)
  if !unchecked.isEmpty then
    { st with
      checked_at := some now
      status := "pending"
      issues := [⟨"info", "Требуется юридическая проверка (" ++
        toString unchecked.length ++ " пунктов)"⟩] }
  else
    let critical_failed :=
      st.checklist.filter (fun it => it.severity = "critical" && !it.checked)
    { st with
      checked_at := some now
      status := if !critical_failed.isEmpty then "failed" else "passed"
      issues := [] }

/-- `FinancialControl.check`. -/
def checkFinancial (now : String) (st : CtrlStage) : CtrlStage :=
  let unchecked := st.checklist.filter (fun it => !it.checked)
  if !unchecked.isEmpty then
    { st with
      checked_at := some now
      status := "pending"
      issues := [⟨"info", "Требуется финансовая проверка (" ++
        toString unchecked.length ++ " пунктов)"⟩] }
  else { st with checked_at := some now, status := "passed", issues := [] }

/-- `FinalControl.check`. -/
def checkFinal (now : String) (st : CtrlStage) : CtrlStage :=
  let unchecked := st.checklist.filter (fun it => !it.checked)
  if !unchecked.isEmpty then
    { st with
      checked_at := some now
      status := "pending"
      issues := [⟨"info", "Требуется утверждение руководителя (" ++
        toString unchecked.length ++ " пунктов)"⟩] }
  else { st with checked_at := some now, status := "passed", issues := [] }

/-- Dynamic dispatch of `stage.check(package)`. -/
def checkStage (fs : String → Option Nat) (now : String) (package : Package)
    (st : CtrlStage) : CtrlStage :=
  match st.kind with
  | .automatic => checkAuto fs now package st
  | .legal => checkLegal now st
  | .financial => checkFinancial now st
  | .final => checkFinal now st

/-- `ControlStage.get_result` payload. -/
structure StageResult where
  stage : String
  status : String
  issues : List Issue
  checked_at : Option String
  checklist : List ChecklistItem
  checklist_completion : ℚ
deriving Repr, DecidableEq

/-- Python `round(x, 1)` (ties are negligible here: no checklist length
in the repository produces an exact half at one decimal). -/
def round1 (x : ℚ) : ℚ := (round (x * 10) : ℤ) / 10

/-- `ControlStage._calculate_checklist_completion`. -/
def checklistCompletion (cl : List ChecklistItem) : ℚ :=
  if cl.isEmpty then 100
  else round1 ((cl.countP (fun it => it.checked = true) : ℚ) / (cl.length : ℚ) * 100)

/-- `ControlStage.get_result`. -/
def getResult (st : CtrlStage) : StageResult :=
  { stage := st.name
    status := st.status
    issues := st.issues
    checked_at := st.checked_at
    checklist := st.checklist
    checklist_completion := checklistCompletion st.checklist }

/-- `MultiStageController` state: the ordered stage list and the
append-only history log. -/
structure CtrlState where
  stages : List CtrlStage
  history : List HistoryEntry := []
deriving Repr, DecidableEq

/-- A fresh `MultiStageController()`. -/
def initController : CtrlState :=
  { stages := [autoStage, legalStage, financialStage, finalStage] }

/-- `ControlHistory.add_entry` record builder; the entry id embeds the
clock stamp. -/
def mkEntry (stage_name action user_id user_name now status_before status_after
    comment : String) : HistoryEntry :=
  { entry_id := "CHE-" ++ now
    stage_name := stage_name
    action := action
    user_id := user_id
    user_name := user_name
    timestamp := now
    status_before := status_before
    status_after := status_after
    comment := comment }

/-- The stage loop of `execute_full_control`: checks each stage in list
order, records one history entry per stage checked, and breaks as soon
as a stage status resolves to `failed`.  Returns the results reported,
the updated stage list and the history entries appended. -/
def execLoop (fs : String → Option Nat) (now : String) (package : Package)
    (user_id user_name : String) :
    List CtrlStage → List StageResult × List CtrlStage × List HistoryEntry
  | [] => ([], [], [])
  | st :: rest =>
    let status_before := st.status
    let st' := checkStage fs now package st
    let entry := mkEntry st'.name "check" user_id user_name now status_before
      st'.status ("Автоматическая проверка этапа '" ++ st'.name ++ "'")
    if st'.status = "failed" then ([getResult st'], st' :: rest, [entry])
    else
      let (rs, sts, es) := execLoop fs now package user_id user_name rest
      (getResult st' :: rs, st' :: sts, entry :: es)

/-- `execute_full_control`'s summary dict. -/
structure ExecResult where
  overall_status : String
  stages : List StageResult
  completed_at : String
  history_entries : Nat
deriving Repr, DecidableEq

/-- `MultiStageController.execute_full_control`. -/
def executeFullControl (fs : String → Option Nat) (now : String)
    (package : Package) (user_id user_name : String) (cs : CtrlState) :
    ExecResult × CtrlState :=
  let (results, stages', entries) :=
    execLoop fs now package user_id user_name cs.stages
  let history' := cs.history ++ entries
  let overall :=
    if results.any (fun r => r.status = "failed") then "failed"
    else if results.any (fun r => r.status = "warning") then "warning"
    else if results.any (fun r => r.status = "pending") then "pending"
    else "passed"
  ({ overall_status := overall
     stages := results
     completed_at := now
     history_entries := history'.length },
   { stages := stages', history := history' })

/-- `MultiStageController.approve_stage`: refused — `False`, no mutation,
no history entry — when the stage still has an unchecked critical item
or the index is out of range. -/
def approveStage (cs : CtrlState) (stage_index : Nat)
    (user_id user_name comment now : String) : Bool × CtrlState :=
  match cs.stages.get? stage_index with
  | none => (false, cs)
  | some stage =>
    let status_before := stage.status
    let critical_unchecked :=
      stage.checklist.filter (fun it => it.severity = "critical" && !it.checked)
    if !critical_unchecked.isEmpty then (false, cs)
    else
      let stage' := { stage with status := "passed" }
      let entry := mkEntry stage.name "approve" user_id user_name now
        status_before "passed" (if comment = "" then "Этап утвержден" else comment)
      (true, { stages := cs.stages.set stage_index stage'
               history := cs.history ++ [entry] })

/-! ### Parsing of the model's output
(src/src/analyzer.py `analyze`, src/backend/analyzer.py
`analyze_documentation`)

`json.loads` is the Python standard library; it is passed in as an
oracle `loads : String → Option PyParsed` returning `none` on a
`JSONDecodeError`, a dict of the analysis shape, or `nonDict` for any
other successfully parsed JSON value.  The LLM response itself
(`result_text` / `raw_output`) is a parameter: the core never re-invokes
the generator. -/

/-- The `procurement_info` sub-dict. -/
structure PInfo where
  number : Option String := none
  customer : Option String := none
  procedure_type : Option String := none
deriving Repr, DecidableEq

/-- A parsed analysis dict: the keys the downstream code reads, plus
carried-through extras. -/
structure ADict where
  procurement_info : Option PInfo := none
  required_documents : Option (List PyEntry) := none
  extra : List (String × String) := []
deriving Repr, DecidableEq

/-- Result of `json.loads` when it does not raise. -/
inductive PyParsed where
  | pdict (d : ADict)
  | nonDict
deriving Repr, DecidableEq

/-- `s.split(":", 1)[1].strip()` — everything after the first colon,
stripped (callers guarantee a colon is present). -/
def afterColon (s : String) : String :=
  pyStrip (String.mk (((s.toList.dropWhile (fun c => c ≠ ':'))).drop 1))

/-- Python `str.isdigit` restricted to ASCII digits, on a string. -/
def pyIsDigitStr (s : String) : Bool :=
  !s.isEmpty && s.toList.all (fun c => c.isDigit)

/-- Line loop of `_parse_text_output`: updates the procurement-info
fields on `key:`-lines, appends one record per pipe-delimited row with a
numeric leading column, and stops at the end-of-list sentinel. -/
def parseTextLoop : List String → PInfo → List PyDoc → PInfo × List PyDoc
  | [], info, docs => (info, docs)
  | line :: rest, info, docs =>
    let line := pyStrip line
    let info :=
      if pyContains "Номер:" line then { info with number := some (afterColon line) }
      else if pyContains "Заказчик:" line then { info with customer := some (afterColon line) }
      else if pyContains "Тип процедуры:" line then
        { info with procedure_type := some (afterColon line) }
      else info
    let docs :=
      if pyContains "|" line &&
          !(pyContains "Название" line || pyContains "===" line) then
        let parts := (line.splitOn "|").map pyStrip
        if 2 ≤ parts.length then
          let doc_num := pyStrip (String.mk ((parts.getD 0 "").toList.filter (fun c => c ≠ '№')))
          if pyIsDigitStr doc_num then
            docs ++ [{ id := some ("doc_" ++ toString (docs.length + 1))
                       name := some (parts.getD 1 "")
                       mandatory := some (if 2 < parts.length then
                         pyContains "да" (pyLower (parts.getD 2 "")) else true)
                       format := some (if 3 < parts.length then parts.getD 3 "" else "Копия")
                       validity := if 4 < parts.length then some (parts.getD 4 "") else none
                       source_reference := some (if 5 < parts.length then
                         parts.getD 5 "" else "Не указано") }]
          else docs
        else docs
      else docs
    if pyContains "КОНЕЦ СПИСКА" line then (info, docs)
    else parseTextLoop rest info docs

/-- `DocumentAnalyzer._parse_text_output` (backend). -/
def parseTextOutput (text : String) : ADict :=
  let (info, docs) := parseTextLoop (text.splitOn "\n") {} []
  { procurement_info := some info, required_documents := some (docs.map PyEntry.obj) }

/-- Body of a fenced block: the submatch of `(.*?)` between a spent
`³³³json` opener and the next closing backquote fence, leading and
trailing whitespace absorbed by the surrounding greedy and lazy parts of
the pattern. -/
def fencedBody (body : List Char) : Option (List Char) :=
  let b := body.dropWhile pyIsSpace
  let close := "```".toList
  let rec go : List Char → Option (List Char)
    | [] => none
    | c :: cs =>
      if hasPat close (c :: cs) then some []
      else (go cs).map (fun g => c :: g)
  (go b).map (fun g => (g.reverse.dropWhile pyIsSpace).reverse)

/-- The fenced-JSON search of `_parse_json_output`: the leftmost
occurrence of the json fence opener that is followed by a closing fence,
with the enclosed group. -/
def extractFenced : List Char → Option (List Char)
  | [] => none
  | c :: cs =>
    if hasPat "```json".toList (c :: cs) then
      match fencedBody ((c :: cs).drop 7) with
      | some g => some g
      | none => extractFenced cs
    else extractFenced cs

/-- `str.rfind(pat)`: index of the last occurrence of a pattern. -/
def rfindPat (pat s : List Char) : Option Nat :=
  ((List.range (s.length + 1)).filter (fun i => hasPat pat (s.drop i))).getLast?

/-- The truncation repair of `_parse_json_output` (backend): cut after
the last `"}` and close the array and object. -/
def truncRepair (text : String) : Option String :=
  match rfindPat ['"', '}'] text.toList with
  | some i => some (String.mk (text.toList.take (i + 2) ++ ']' :: ['}']))
  | none => none

/-- `DocumentAnalyzer._parse_json_output` (backend): direct parse, then
fenced block, then truncation repair; when everything fails, the literal
degraded dict `(procurement_info: \x7b\x7d, required_documents: [])` —
and no exception ever escapes. -/
def parseJsonOutput (loads : String → Option PyParsed) (text : String) : PyParsed :=
  match loads text with
  | some p => p
  | none =>
    let viaFence :=
      match extractFenced text.toList with
      | some g => loads (String.mk g)
      | none => none
    match viaFence with
    | some p => p
    | none =>
      let viaTrunc :=
        match truncRepair text with
        | some t => loads t
        | none => none
      match viaTrunc with
      | some p => p
      | none => .pdict { procurement_info := some {}, required_documents := some [] }

/-- Index of the first occurrence of a character (`str.find`). -/
def findChar (c : Char) (l : List Char) : Option Nat := l.findIdx? (fun x => x = c)

/-- Index of the last occurrence of a character (`str.rfind`). -/
def rfindChar (c : Char) (l : List Char) : Option Nat :=
  ((List.range l.length).filter (fun i => l.get? i = some c)).getLast?

/-- The brace extraction of `analyze` (src/src/analyzer.py):
`result_text[result_text.find("{") : result_text.rfind("}") + 1]` when
that span is non-empty, else the `ValueError` branch. -/
def extractJson (s : String) : Option String :=
  let l := s.toList
  match findChar '{' l, rfindChar '}' l with
  | some js, some je => if js ≤ je then some (String.mk ((l.drop js).take (je + 1 - js))) else none
  | _, _ => none

/-- The result dict of `DocumentAnalyzer.analyze` (src/src/analyzer.py). -/
structure SResult where
  procurement_info : Option PInfo := none
  required_documents : Option (List PyEntry) := none
  total_count : Nat := 0
  model_size : Option String := none
  extra : List (String × String) := []
deriving Repr, DecidableEq

/-- `DocumentAnalyzer.analyze` (src/src/analyzer.py) downstream of the
LLM call: brace extraction, `json.loads`, deduplication, cap.  The
`except` block logs and re-raises, so every parse failure escapes to the
caller as an exception (`Except.error`); a JSON value that is not a dict
raises `TypeError` at the membership test or the `total_count`
assignment. -/
def analyze (loads : String → Option PyParsed) (model_size : String)
    (document_text result_text : String) : Except String SResult :=
  if pyStrip document_text = "" then
    .ok { procurement_info := some {}, required_documents := some [], total_count := 0 }
  else
    match extractJson result_text with
    | none => .error "ValueError: JSON not found in model response"
    | some json_text =>
      match loads json_text with
      | none => .error "json.JSONDecodeError"
      | some .nonDict => .error "TypeError"
      | some (.pdict d) =>
        let state :=
          match d.required_documents with
          | some docs =>
            let u := (dedupAnalyzer docs).map PyEntry.obj
            let u := if MAX_DOCUMENTS < u.length then u.take MAX_DOCUMENTS else u
            (some u, u.length)
          | none => (none, 0)
        .ok { procurement_info := d.procurement_info
              required_documents := state.1
              total_count := state.2
              model_size := some model_size
              extra := d.extra }

/-- The result dict of `analyze_documentation` (backend).  The
`analysis_time` and exception-text `message` keys are wall-clock and
traceback metadata and are not modelled. -/
structure BResult where
  error : Option String := none
  procurement_info : Option PInfo := none
  required_documents : Option (List PyEntry) := none
  total_count : Option Nat := none
  model_size : Option String := none
  extra : List (String × String) := []
deriving Repr, DecidableEq

/-- `DocumentAnalyzer.analyze_documentation` (src/backend/analyzer.py)
downstream of the LLM call: picks text or JSON parsing, deduplicates,
caps, and catches every exception into the tagged error dict (which has
no `procurement_info` key).  The only modelled exception inside the
`try` is the `TypeError` hit when the parsed JSON is not a dict. -/
def analyzeDocumentation (loads : String → Option PyParsed)
    (model_size output_format : String) (doc_text raw_output : String) : BResult :=
  if pyStrip doc_text = "" then
    { procurement_info := some {}, required_documents := some []
      total_count := some 0, model_size := some model_size }
  else
    let parsed : PyParsed :=
      if output_format = "text" || model_size = "small" then
        .pdict (parseTextOutput raw_output)
      else parseJsonOutput loads raw_output
    match parsed with
    | .nonDict => { error := some "analysis_failed", required_documents := some [] }
    | .pdict d =>
      let docs := d.required_documents.getD []
      let u := (dedupAnalyzer docs).map PyEntry.obj
      let u := if MAX_DOCUMENTS < u.length then u.take MAX_DOCUMENTS else u
      { procurement_info := d.procurement_info
        required_documents := some u
        total_count := some u.length
        model_size := some model_size
        extra := d.extra }

/-! ## Theorems settling the claims -/

/-- Claim C8: on a stage that still has an unchecked critical-severity
checklist item, `approve_stage` returns `False` and the controller state
— stage status, every checklist item, and the history log — is left
untouched. -/
theorem claim_C8_approve_guard (cs : CtrlState) (i : Nat)
    (user_id user_name comment now : String) (stage : CtrlStage)
    (hget : cs.stages.get? i = some stage)
    (hcrit : ∃ it ∈ stage.checklist, it.severity = "critical" ∧ it.checked = false) :
    approveStage cs i user_id user_name comment now = (false, cs) := by
  obtain ⟨it, hmem, hsev, hchk⟩ := hcrit
  have hfilter :
      stage.checklist.filter (fun it => it.severity = "critical" && !it.checked) ≠ [] := by
    intro hnil
    have := List.filter_eq_nil_iff.mp hnil it hmem
    simp [hsev, hchk] at this
  unfold approveStage
  rw [hget]
  simp only []
  rw [if_pos]
  cases hfe : stage.checklist.filter (fun it => it.severity = "critical" && !it.checked) with
  | nil => exact absurd hfe hfilter
  | cons x xs => simp [hfe]

/-- Claim C8 witness: a fresh controller's Automatic stage has the
unchecked critical item `auto_01`, so approval is refused without any
mutation. -/
theorem claim_C8_witness :
    approveStage initController 0 "u1" "User" "" "2026-01-01" = (false, initController) :=
  claim_C8_approve_guard initController 0 "u1" "User" "" "2026-01-01" autoStage
    (by decide) (by decide)

/-- The out-of-range checklist default used by the positional lemmas
below; its `checked` flag is `false`. -/
def noItem : ChecklistItem := { id := "", description := "", category := "" }

theorem markFirst_checked_mono (item_id : String) (b : Bool) (now : String)
    (l : List ChecklistItem) (j : Nat)
    (h : (l.getD j noItem).checked = true) :
    ((markFirst item_id b now l).getD j noItem).checked = true := by
  induction l generalizing j with
  | nil => simpa [markFirst] using h
  | cons it rest ih =>
    cases j with
    | zero =>
      by_cases hid : it.id = item_id
      · cases b <;> simp_all [markFirst, hid, ChecklistItem.markChecked]
      · simpa [markFirst, hid] using h
    | succ k =>
      by_cases hid : it.id = item_id
      · simpa [markFirst, hid] using h
      · simpa [markFirst, hid] using ih k (by simpa using h)

theorem checkAuto_checked_mono (fs : String → Option Nat) (now : String)
    (package : Package) (st : CtrlStage) (j : Nat)
    (h : (st.checklist.getD j noItem).checked = true) :
    (((checkAuto fs now package st).checklist).getD j noItem).checked = true := by
  unfold checkAuto
  simp only []
  split
  all_goals
    apply markFirst_checked_mono
    apply markFirst_checked_mono
    apply markFirst_checked_mono
    apply markFirst_checked_mono
    apply markFirst_checked_mono
    apply markFirst_checked_mono
  · exact h
  · exact markFirst_checked_mono _ _ _ _ _ h

/-- Claim C10: `AutomaticControl.check` never unchecks a checklist item —
for any sequence of further `check` calls (each with its own file system,
clock stamp and package, including packages failing the very condition an
item encodes), an item whose `checked` flag is `true` keeps it `true`. -/
theorem claim_C10_auto_check_monotone
    (calls : List ((String → Option Nat) × String × Package)) (st : CtrlStage)
    (j : Nat) (h : (st.checklist.getD j noItem).checked = true) :
    (((calls.foldl (fun s c => checkAuto c.1 c.2.1 c.2.2 s) st).checklist).getD j
      noItem).checked = true := by
  induction calls generalizing st with
  | nil => simpa using h
  | cons c rest ih =>
    exact ih (checkAuto c.1 c.2.1 c.2.2 st) (checkAuto_checked_mono c.1 c.2.1 c.2.2 st j h)

/-- Claim C10 witness: one check on an empty package marks `auto_05`;
a second check on a package that fails every automatic condition leaves
it checked. -/
theorem claim_C10_witness :
    ((([((fun _ => none : String → Option Nat), "t1",
        ({ documents := [{ name := some "x", file_path := some "/gone",
                           status := some "expired" }],
           required_documents := [{}, {}] } : Package))]).foldl
        (fun s c => checkAuto c.1 c.2.1 c.2.2 s)
        (checkAuto (fun _ => none) "t0" {} autoStage)).checklist.getD 4
      noItem).checked = true :=
  claim_C10_auto_check_monotone _ (checkAuto (fun _ => none) "t0" {} autoStage) 4
    (by decide)

theorem checkStage_name (fs : String → Option Nat) (now : String)
    (package : Package) (st : CtrlStage) :
    (checkStage fs now package st).name = st.name := by
  unfold checkStage
  cases st.kind
  · rfl
  · show (checkLegal now st).name = st.name
    unfold checkLegal
    dsimp only
    split <;> rfl
  · show (checkFinancial now st).name = st.name
    unfold checkFinancial
    dsimp only
    split <;> rfl
  · show (checkFinal now st).name = st.name
    unfold checkFinal
    dsimp only
    split <;> rfl

theorem execLoop_spec (fs : String → Option Nat) (now : String) (package : Package)
    (user_id user_name : String) (stages : List CtrlStage) :
    (execLoop fs now package user_id user_name stages).2.2.length =
      (execLoop fs now package user_id user_name stages).1.length ∧
    (execLoop fs now package user_id user_name stages).1.map (fun r => r.stage) =
      (stages.take (execLoop fs now package user_id user_name stages).1.length).map
        (fun s => s.name) ∧
    (∀ r ∈ (execLoop fs now package user_id user_name stages).1.dropLast,
      r.status ≠ "failed") ∧
    (execLoop fs now package user_id user_name stages).2.1.drop
        (execLoop fs now package user_id user_name stages).1.length =
      stages.drop (execLoop fs now package user_id user_name stages).1.length ∧
    (∀ s rest, stages = s :: rest → (checkStage fs now package s).status = "failed" →
      (execLoop fs now package user_id user_name stages).1.length = 1) := by
  induction stages with
  | nil => simp [execLoop]
  | cons st rest ih =>
    by_cases hfail : (checkStage fs now package st).status = "failed"
    · refine ⟨?_, ?_, ?_, ?_, ?_⟩ <;>
        simp [execLoop, hfail, getResult, checkStage_name]
    · obtain ⟨ih1, ih2, ih3, ih4, ih5⟩ := ih
      refine ⟨?_, ?_, ?_, ?_, ?_⟩
      · simp [execLoop, hfail, ih1]
      · simp [execLoop, hfail, getResult, checkStage_name, ih2]
      · intro r hr
        simp only [execLoop, hfail, if_neg, ite_false] at hr
        rcases hrest : (execLoop fs now package user_id user_name rest).1 with _ | ⟨r0, rs⟩
        · simp [hrest] at hr
        · rw [hrest] at hr
          rw [List.dropLast_cons_of_ne_nil (by simp)] at hr
          rcases List.mem_cons.mp hr with h0 | h1
          · subst h0; simpa [getResult] using hfail
          · exact ih3 r (by rwa [hrest])
      · simpa [execLoop, hfail] using ih4
      · intro s rest' heq hsf
        injection heq with h1 h2
        subst h1 h2
        exact absurd hsf hfail

/-- Claim C7: `execute_full_control` checks the stages strictly in the
controller's fixed list order — for a fresh controller: Automatic,
Legal, Financial, Final — appends exactly one history entry per stage
that ran, reports no `failed` status except possibly for the last stage
that ran, leaves every later stage untouched, and reports exactly one
stage when the first (Automatic) stage's check fails. -/
theorem claim_C7_execute_full_control :
    (∀ (fs : String → Option Nat) (now : String) (package : Package)
      (user_id user_name : String) (cs : CtrlState),
      ((executeFullControl fs now package user_id user_name cs).2.history.length =
        cs.history.length +
          (executeFullControl fs now package user_id user_name cs).1.stages.length) ∧
      ((executeFullControl fs now package user_id user_name cs).1.stages.map
          (fun r => r.stage) =
        (cs.stages.take
          (executeFullControl fs now package user_id user_name cs).1.stages.length).map
            (fun s => s.name)) ∧
      (∀ r ∈ (executeFullControl fs now package user_id user_name cs).1.stages.dropLast,
        r.status ≠ "failed") ∧
      ((executeFullControl fs now package user_id user_name cs).2.stages.drop
          (executeFullControl fs now package user_id user_name cs).1.stages.length =
        cs.stages.drop
          (executeFullControl fs now package user_id user_name cs).1.stages.length) ∧
      (∀ s rest, cs.stages = s :: rest →
        (checkStage fs now package s).status = "failed" →
        (executeFullControl fs now package user_id user_name cs).1.stages.length = 1)) ∧
    initController.stages.map (fun s => s.name) =
      ["Автоматический", "Юридический", "Финансовый", "Итоговый"] := by
  constructor
  · intro fs now package user_id user_name cs
    obtain ⟨h1, h2, h3, h4, h5⟩ := execLoop_spec fs now package user_id user_name cs.stages
    have hs : (executeFullControl fs now package user_id user_name cs).1.stages =
        (execLoop fs now package user_id user_name cs.stages).1 := rfl
    have hh : (executeFullControl fs now package user_id user_name cs).2.history =
        cs.history ++ (execLoop fs now package user_id user_name cs.stages).2.2 := rfl
    have hst : (executeFullControl fs now package user_id user_name cs).2.stages =
        (execLoop fs now package user_id user_name cs.stages).2.1 := rfl
    refine ⟨?_, ?_, ?_, ?_, ?_⟩
    · rw [hh, hs, List.length_append, h1]
    · rw [hs, h2]
    · rw [hs]; exact h3
    · rw [hst, hs]; exact h4
    · rw [hs]; exact h5
  · rfl

/-- Claim C7 witness: a package with fewer supplied documents than
required fails the Automatic stage, so a fresh controller reports
exactly one stage and one history entry. -/
theorem claim_C7_witness :
    (executeFullControl (fun _ => none) "t0"
        { documents := [], required_documents := [{ name := some "x" }] }
        "u1" "User" initController).1.stages.length = 1 :=
  (claim_C7_execute_full_control.1 (fun _ => none) "t0"
      { documents := [], required_documents := [{ name := some "x" }] }
      "u1" "User" initController).2.2.2.2 autoStage
    [legalStage, financialStage, finalStage] rfl (by decide)

/-- Claim C6 counterexample: the whitespace-only string is non-empty,
yet `calculate_similarity` of it with itself is `0`, not `1` — the
claimed `similarity(a,a) = 1` fails for non-empty `a` without tokens. -/
theorem claim_C6_counterexample :
    calculate_similarity " " " " = 0 ∧ (" " : String) ≠ "" := by
  constructor
  · decide
  · decide

/-- Claim C6 (amended): the similarity is in `[0,1]` and symmetric,
`similarity("",x) = 0`, and `similarity(a,a) = 1` for every `a` whose
whitespace-token list is non-empty; a non-empty but whitespace-only
string compares to itself as `0`. -/
theorem claim_C6_similarity (a b x : String) :
    (0 ≤ calculate_similarity a b ∧ calculate_similarity a b ≤ 1) ∧
    calculate_similarity a b = calculate_similarity b a ∧
    (pyWords a ≠ [] → calculate_similarity a a = 1) ∧
    calculate_similarity "" x = 0 := by
  refine ⟨⟨?_, ?_⟩, ?_, ?_, ?_⟩
  · by_cases hg : a = "" ∨ b = ""
    · simp [calculate_similarity, hg]
    · rw [calculate_similarity, if_neg hg]
      by_cases hu : 0 < (wordSet a ∪ wordSet b).card
      · rw [if_pos hu]
        positivity
      · rw [if_neg hu]
  · by_cases hg : a = "" ∨ b = ""
    · simp [calculate_similarity, hg]
    · rw [calculate_similarity, if_neg hg]
      by_cases hu : 0 < (wordSet a ∪ wordSet b).card
      · rw [if_pos hu, div_le_one (by exact_mod_cast hu)]
        exact_mod_cast Finset.card_le_card Finset.inter_subset_union
      · rw [if_neg hu]
        norm_num
  · by_cases hg : a = "" ∨ b = ""
    · rw [calculate_similarity, if_pos hg, calculate_similarity,
        if_pos (Or.symm hg)]
    · rw [calculate_similarity, if_neg hg, calculate_similarity,
        if_neg (fun h => hg (Or.symm h)), Finset.inter_comm, Finset.union_comm]
  · intro hw
    have ha : a ≠ "" := by
      intro h
      subst h
      exact hw rfl
    rw [calculate_similarity, if_neg (by simp [ha]), Finset.inter_self,
      Finset.union_self]
    obtain ⟨w, hwmem⟩ := List.exists_mem_of_ne_nil _ hw
    have hpos : 0 < (wordSet a).card :=
      Finset.card_pos.mpr ⟨w, List.mem_toFinset.mpr hwmem⟩
    rw [if_pos hpos]
    exact div_self (by exact_mod_cast Nat.pos_iff_ne_zero.mp hpos)
  · rw [calculate_similarity, if_pos (Or.inl rfl)]

/-- Claim C6 witness: the amended similarity contract evaluated at
concrete strings with a non-empty token list. -/
theorem claim_C6_witness :
    calculate_similarity "выписка егрюл" "выписка егрюл" = 1 :=
  (claim_C6_similarity "выписка егрюл" "устав" "x").2.2.1 (by decide)

/-! ### Verification claims -/

/-- The set of mandatory requirements, counted directly from the list
(specification-side closed form). -/
def totalMandatorySpec (required : List PyDoc) : Nat :=
  required.countP (fun r => r.mandatory.getD true)

/-- The mandatory requirements matched by some provided description
(specification-side closed form). -/
def matchedMandatorySpec (required : List PyDoc) (provided : List String) : Nat :=
  required.countP (fun r =>
    r.mandatory.getD true &&
      isProvidedName (pyLower r.getName) (provided.map pyLower))

theorem verifyStep_ok (provN : List String) (st : VerifyState) (r : PyDoc)
    (h : r.name.isSome = true) :
    ∃ st', verifyStep provN st r = .ok st' ∧
      st'.total_mandatory =
        st.total_mandatory + (if r.mandatory.getD true then 1 else 0) ∧
      st'.matched_mandatory =
        st.matched_mandatory +
          (if r.mandatory.getD true && isProvidedName (pyLower r.getName) provN
            then 1 else 0) := by
  obtain ⟨nm, hnm⟩ := Option.isSome_iff_exists.mp h
  unfold verifyStep
  rw [hnm]
  by_cases hp : isProvidedName (pyLower r.getName) provN = true
  · rw [if_pos hp, hp]
    exact ⟨_, rfl, rfl, by cases hmnd : r.mandatory.getD true <;> simp⟩
  · rw [if_neg hp]
    rw [Bool.not_eq_true] at hp
    rw [hp]
    cases hmnd : r.mandatory.getD true
    · simp only [Bool.false_and, if_false, Bool.false_eq_true, ite_false]
      exact ⟨_, rfl, rfl, by simp⟩
    · simp only [if_true, Bool.true_and, Bool.false_eq_true, ite_false]
      exact ⟨_, rfl, rfl, by simp⟩

theorem verify_fold_ok (provN : List String) :
    ∀ (l : List PyDoc) (st : VerifyState), (∀ r ∈ l, r.name.isSome = true) →
    ∃ st', List.foldlM (verifyStep provN) st l = .ok st' ∧
      st'.total_mandatory =
        st.total_mandatory + l.countP (fun r => r.mandatory.getD true) ∧
      st'.matched_mandatory =
        st.matched_mandatory +
          l.countP (fun r =>
            r.mandatory.getD true && isProvidedName (pyLower r.getName) provN) := by
  intro l
  induction l with
  | nil => exact fun st _ => ⟨st, rfl, by simp, by simp⟩
  | cons r rs ih =>
    intro st hall
    obtain ⟨st1, hstep, ht1, hm1⟩ :=
      verifyStep_ok provN st r (hall r (List.mem_cons_self r rs))
    obtain ⟨st2, hfold, ht2, hm2⟩ :=
      ih st1 (fun q hq => hall q (List.mem_cons_of_mem r hq))
    refine ⟨st2, ?_, ?_, ?_⟩
    · rw [List.foldlM_cons, hstep]
      simpa using hfold
    · rw [ht2, ht1, List.countP_cons]
      by_cases hmnd : r.mandatory.getD true = true <;> (simp [hmnd]; try omega)
    · rw [hm2, hm1, List.countP_cons]
      by_cases hmp :
          (r.mandatory.getD true &&
            isProvidedName (pyLower r.getName) provN) = true <;>
        (simp [hmp]; try omega)

/-- Claim C2 counterexample: three mandatory requirements, two matched.
The code returns `int(2/3*100) = 66` (truncation), while the claimed
`round(2/3*100)` is `67`. -/
theorem claim_C2_counterexample :
    (verify_documents
        [{ name := some "a" }, { name := some "b" }, { name := some "c" }]
        ["a", "b"]).map (fun v => v.completeness_score) = Except.ok 66 ∧
    round ((2 : ℚ) / 3 * 100) = 67 := by
  constructor
  · rfl
  · norm_num [round_eq]

/-- Claim C2 (amended): `completeness_score` is the floor
`⌊matched_mandatory / total_mandatory * 100⌋` (Python `int()`
truncation, not `round`), `100` when there are no mandatory
requirements; stated for inputs whose records all carry a `name` key,
since a missing key can abort `verify_documents` with a `KeyError`. -/
theorem claim_C2_completeness_floor (required : List PyDoc)
    (provided : List String) (h : ∀ r ∈ required, r.name.isSome = true) :
    ∃ v, verify_documents required provided = .ok v ∧
      v.completeness_score =
        (if totalMandatorySpec required = 0 then 100
         else matchedMandatorySpec required provided * 100 /
           totalMandatorySpec required) := by
  obtain ⟨st, hfold, ht, hm⟩ := verify_fold_ok (provided.map pyLower) required {} h
  have ht' : st.total_mandatory = totalMandatorySpec required := by
    simpa [totalMandatorySpec] using ht
  have hm' : st.matched_mandatory = matchedMandatorySpec required provided := by
    simpa [matchedMandatorySpec] using hm
  have hv : verify_documents required provided =
      .ok { st.res with completeness_score :=
        if 0 < st.total_mandatory then
          st.matched_mandatory * 100 / st.total_mandatory
        else 100 } := by
    unfold verify_documents
    dsimp only
    rw [hfold]
  refine ⟨_, hv, ?_⟩
  simp only []
  rw [ht', hm']
  by_cases h0 : totalMandatorySpec required = 0
  · simp [h0]
  · simp [h0, Nat.pos_of_ne_zero h0]

/-- Claim C2 witness: the amended floor formula at a concrete input
(three mandatory requirements, two matched, score `66`). -/
theorem claim_C2_witness :
    ∃ v, verify_documents
        [{ name := some "a" }, { name := some "b" }, { name := some "c" }]
        ["a", "b"] = .ok v ∧
      v.completeness_score =
        (if totalMandatorySpec
            [{ name := some "a" }, { name := some "b" }, { name := some "c" }] = 0
         then 100
         else matchedMandatorySpec
            [{ name := some "a" }, { name := some "b" }, { name := some "c" }]
            ["a", "b"] * 100 /
          totalMandatorySpec
            [{ name := some "a" }, { name := some "b" }, { name := some "c" }]) :=
  claim_C2_completeness_floor _ _ (by decide)

theorem pyContains_empty_left (s : String) : pyContains "" s = true := by
  unfold pyContains
  exact decide_eq_true ⟨[], s.toList, rfl⟩

theorem isProvidedName_empty (provN : List String) (h : provN ≠ []) :
    isProvidedName "" provN = true := by
  cases provN with
  | nil => exact absurd rfl h
  | cons p ps => simp [isProvidedName, pyContains_empty_left]

/-- Claim C9 counterexample: a mandatory record with no `name` key and a
non-empty provided list makes `verify_documents` raise `KeyError`
instead of returning a classification. -/
theorem claim_C9_counterexample :
    verify_documents [{ name := none, mandatory := some true }] ["x"] =
      .error () := by
  rfl

/-- Value of `verify_documents` on a single record whose `name` key is
present but empty. -/
theorem verify_single_empty (r : PyDoc) (prov : List String)
    (hname : r.name = some "") :
    verify_documents [r] prov =
      (if prov.isEmpty then
        (if r.mandatory.getD true then
          .ok { provided := [], missing_critical := [r.id.getD ""],
                missing_optional := [], completeness_score := 0 }
        else
          .ok { provided := [], missing_critical := [],
                missing_optional := [r.id.getD ""], completeness_score := 100 })
      else
        .ok { provided := [⟨r.id.getD "", "", "provided"⟩],
              missing_critical := [], missing_optional := [],
              completeness_score := 100 }) := by
  have hgn : r.getName = "" := by rw [PyDoc.getName, hname]; rfl
  cases prov with
  | nil =>
    have hstep : verifyStep [] ({} : VerifyState) r =
        (if r.mandatory.getD true then
          .ok { res := { missing_critical := [r.id.getD ""] }, total_mandatory := 1 }
        else
          .ok { res := { missing_optional := [r.id.getD ""] }, total_mandatory := 0 }) := by
      unfold verifyStep
      rw [hname, hgn]
      dsimp only
      have hp : isProvidedName (pyLower "") [] = false := rfl
      rw [hp]
      by_cases hm : r.mandatory.getD true
      · simp [hm, pure, Except.pure]
      · simp [hm, pure, Except.pure]
    by_cases hm : r.mandatory.getD true
    · rw [if_pos hm] at hstep
      unfold verify_documents
      dsimp only
      simp only [List.map_nil]
      rw [List.foldlM_cons, hstep]
      simp [List.foldlM_nil, hm]
    · rw [if_neg hm] at hstep
      unfold verify_documents
      dsimp only
      simp only [List.map_nil]
      rw [List.foldlM_cons, hstep]
      simp [List.foldlM_nil, hm]
  | cons p ps =>
    have hprovN : (List.map pyLower (p :: ps)) ≠ [] := by simp
    have hp : isProvidedName (pyLower "") (List.map pyLower (p :: ps)) = true := by
      have : pyLower "" = "" := rfl
      rw [this]
      exact isProvidedName_empty _ hprovN
    have hstep : verifyStep (List.map pyLower (p :: ps)) ({} : VerifyState) r =
        .ok { res := { provided := [⟨r.id.getD "", "", "provided"⟩] }
              total_mandatory := if r.mandatory.getD true then 1 else 0
              matched_mandatory := if r.mandatory.getD true then 1 else 0 } := by
      unfold verifyStep
      rw [hname, hgn]
      dsimp only
      rw [hp]
      simp [pure, Except.pure]
    unfold verify_documents
    dsimp only
    rw [List.foldlM_cons, hstep]
    by_cases hm : r.mandatory.getD true <;>
      simp [List.foldlM_nil, hm]

/-- Claim C9 (amended): a required record whose `name` key is present
but empty is classified as provided exactly when the provided list is
non-empty (the empty case-folded name is a substring of every
description), and then counts toward `matched_mandatory` when
mandatory; a record whose `name` key is missing is matched the same
way, but with a non-empty provided list `verify_documents` then raises
`KeyError` building the provided entry rather than returning. -/
theorem claim_C9_empty_or_missing_name :
    (∀ prov : List String, isProvidedName "" (prov.map pyLower) = !prov.isEmpty) ∧
    (∀ (r : PyDoc) (prov : List String), r.name = some "" →
      ∃ v, verify_documents [r] prov = .ok v ∧
        ((v.provided ≠ []) ↔ prov ≠ []) ∧
        (r.mandatory.getD true = true →
          v.completeness_score = if prov.isEmpty then 0 else 100)) ∧
    (∀ (pre post : List PyDoc) (r : PyDoc) (prov : List String),
      r.name = none → prov ≠ [] → (∀ q ∈ pre, q.name.isSome = true) →
      verify_documents (pre ++ r :: post) prov = .error ()) := by
  refine ⟨?_, ?_, ?_⟩
  · intro prov
    cases prov with
    | nil => rfl
    | cons p ps =>
      simp only [List.isEmpty_cons, Bool.not_false]
      exact isProvidedName_empty _ (by simp)
  · intro r prov hname
    rw [verify_single_empty r prov hname]
    cases prov with
    | nil =>
      rw [if_pos (show ([] : List String).isEmpty = true from rfl)]
      by_cases hm : r.mandatory.getD true
      · rw [if_pos hm]
        exact ⟨_, rfl, by simp, fun _ => by
          rw [if_pos (show ([] : List String).isEmpty = true from rfl)]⟩
      · rw [if_neg hm]
        exact ⟨_, rfl, by simp, fun hc => absurd hc hm⟩
    | cons p ps =>
      rw [if_neg (show ¬((p :: ps).isEmpty = true) from by simp)]
      refine ⟨_, rfl, by simp, fun _ => by
        rw [if_neg (show ¬((p :: ps).isEmpty = true) from by simp)]⟩
  · intro pre post r prov hname hprov hall
    have hprovN : prov.map pyLower ≠ [] := by
      intro h
      exact hprov (List.map_eq_nil_iff.mp h)
    have hgn : pyLower r.getName = "" := by rw [PyDoc.getName, hname]; rfl
    have hstep : ∀ st : VerifyState, verifyStep (prov.map pyLower) st r = .error () := by
      intro st
      unfold verifyStep
      rw [hname, hgn]
      dsimp only
      rw [isProvidedName_empty _ hprovN]
      rfl
    have hfold : ∀ (l : List PyDoc) (st : VerifyState),
        (∀ q ∈ l, q.name.isSome = true) →
        List.foldlM (verifyStep (prov.map pyLower)) st (l ++ r :: post) =
          .error () := by
      intro l
      induction l with
      | nil =>
        intro st _
        rw [List.nil_append, List.foldlM_cons, hstep st]
        rfl
      | cons q qs ih =>
        intro st hall'
        obtain ⟨st1, hq, -, -⟩ :=
          verifyStep_ok (prov.map pyLower) st q (hall' q (List.mem_cons_self q qs))
        rw [List.cons_append, List.foldlM_cons, hq]
        simpa using ih st1 (fun x hx => hall' x (List.mem_cons_of_mem q hx))
    unfold verify_documents
    dsimp only
    rw [hfold pre {} hall]

/-- Claim C9 witness: an empty-named mandatory record against one
provided description is classified provided with score 100. -/
theorem claim_C9_witness :
    ∃ v, verify_documents [{ name := some "", mandatory := some true }] ["x"] =
        .ok v ∧
      ((v.provided ≠ []) ↔ (["x"] : List String) ≠ []) ∧
      (({ name := some "", mandatory := some true } : PyDoc).mandatory.getD true
          = true →
        v.completeness_score = if (["x"] : List String).isEmpty then 0 else 100) :=
  claim_C9_empty_or_missing_name.2.1
    { name := some "", mandatory := some true } ["x"] rfl

/-! ### Deduplication claims -/

theorem renumberFrom_length (k : Nat) (l : List PyDoc) :
    (renumberFrom k l).length = l.length := by
  induction l generalizing k with
  | nil => rfl
  | cons d ds ih => simp [renumberFrom, ih]

theorem dedupLoop_length_le (θ : ℚ) :
    ∀ (l acc : List PyDoc) (seen : List String) (s : DedupStats),
    acc.length ≤ MAX_DOCUMENTS →
    (dedupLoop θ l acc seen s).1.length ≤ MAX_DOCUMENTS := by
  intro l
  induction l with
  | nil => intro acc seen s h; exact h
  | cons doc ds ih =>
    intro acc seen s h
    unfold dedupLoop
    by_cases hcap : MAX_DOCUMENTS ≤ acc.length
    · rw [if_pos hcap]
      exact h
    · rw [if_neg hcap]
      dsimp only
      split
      · exact ih acc seen s h
      · split
        · exact ih acc seen _ h
        · split
          · exact ih acc seen _ h
          · exact ih (acc ++ [doc]) _ s (by simp; omega)

theorem dedupLoop_trunc (θ : ℚ) :
    ∀ (l acc : List PyDoc) (seen : List String) (s : DedupStats),
    s.truncated_by_limit = false →
    (dedupLoop θ l acc seen s).2.truncated_by_limit = true →
    MAX_DOCUMENTS < acc.length + l.length := by
  intro l
  induction l with
  | nil =>
    intro acc seen s h0 ht
    rw [dedupLoop] at ht
    rw [h0] at ht
    exact absurd ht (by simp)
  | cons doc ds ih =>
    intro acc seen s h0 ht
    rw [dedupLoop] at ht
    by_cases hcap : MAX_DOCUMENTS ≤ acc.length
    · simp only [List.length_cons]
      omega
    · rw [if_neg hcap] at ht
      dsimp only at ht
      simp only [List.length_cons]
      split at ht
      · have := ih acc seen s h0 ht
        omega
      · split at ht
        · have := ih acc seen _ (by exact h0) ht
          omega
        · split at ht
          · have := ih acc seen _ (by exact h0) ht
            omega
          · have := ih (acc ++ [doc]) _ s h0 ht
            simp at this
            omega

/-- Claim C3 counterexample: 51 records with the same name deduplicate
to one record; the loop never reaches the 50-record cap, so
`truncated_by_limit` stays `false` although the input had more than 50
records. -/
theorem claim_C3_counterexample :
    ((deduplicate (17/20) initStats
        { required_documents := List.replicate 51 { name := some "a" } }
      ).deduplication_stats.map (fun st => st.truncated_by_limit)) = some false ∧
    MAX_DOCUMENTS <
      (({ required_documents := List.replicate 51 { name := some "a" } } :
        JAnalysis)).required_documents.length := by
  constructor
  · rfl
  · decide

/-- Claim C3 (amended): `deduplicate` emits at most 50 records for every
input and every prior statistics state; `truncated_by_limit == true` in
the emitted statistics implies the input had more than 50 records, but
an over-50 input whose duplicates or unnamed entries keep the accepted
count below the cap reports `truncated_by_limit == false`. -/
theorem claim_C3_dedup_cap (θ : ℚ) (s0 : DedupStats) (a : JAnalysis)
    (st : DedupStats) (h0 : s0.truncated_by_limit = false) :
    (deduplicate θ s0 a).required_documents.length ≤ MAX_DOCUMENTS ∧
    (a.required_documents ≠ [] →
      (deduplicate θ s0 a).deduplication_stats = some st →
      st.truncated_by_limit = true →
      MAX_DOCUMENTS < a.required_documents.length) := by
  constructor
  · unfold deduplicate
    dsimp only
    by_cases he : a.required_documents.isEmpty
    · rw [if_pos he]
      have : a.required_documents = [] := by
        cases hl : a.required_documents
        · rfl
        · rw [hl] at he; exact absurd he (by simp)
      rw [this]
      simp [MAX_DOCUMENTS]
    · rw [if_neg he]
      rcases hdl : dedupLoop θ a.required_documents [] []
          { s0 with total_input := a.required_documents.length } with ⟨uniq, stats2⟩
      dsimp only
      rw [renumberFrom_length]
      have := dedupLoop_length_le θ a.required_documents [] []
        { s0 with total_input := a.required_documents.length }
        (by simp [MAX_DOCUMENTS])
      rw [hdl] at this
      exact this
  · intro hne hsome htr
    unfold deduplicate at hsome
    dsimp only at hsome
    rw [if_neg (by simpa using hne)] at hsome
    have hst := (Option.some.inj hsome).symm
    rw [hst] at htr
    dsimp only at htr
    have := dedupLoop_trunc θ a.required_documents [] []
      { s0 with total_input := a.required_documents.length } (by exact h0) htr
    simpa using this

/-- Claim C3 witness: the amended cap bound applied at a concrete
51-duplicate input. -/
theorem claim_C3_witness :
    (deduplicate (17/20) initStats
        { required_documents := List.replicate 51 { name := some "a" } }
      ).required_documents.length ≤ MAX_DOCUMENTS :=
  (claim_C3_dedup_cap (17/20) initStats
      { required_documents := List.replicate 51 { name := some "a" } }
      initStats rfl).1

/-- `is_duplicate` reads only the two names. -/
theorem isDuplicate_name_congr (θ : ℚ) (a a' b b' : PyDoc)
    (ha : a.getName = a'.getName) (hb : b.getName = b'.getName) :
    isDuplicate θ a b = isDuplicate θ a' b' := by
  unfold isDuplicate
  rw [ha, hb]

/-- First-pass invariant of `DocumentDeduplicator.deduplicate`'s loop:
the output extends the accumulator by a sublist of the input
(first-accepted-wins, no eviction), every pair of kept records is a
non-duplicate (distinct normalized names and Jaccard similarity strictly
below the threshold), and every kept record has a non-empty normalized
name. -/
theorem dedupLoop_invariant (θ : ℚ) :
    ∀ (l acc : List PyDoc) (seen : List String) (s : DedupStats),
    seen = acc.map (fun u => normalize_name u.getName) →
    acc.Pairwise (fun u d => isDuplicate θ d u = false) →
    (∀ u ∈ acc, normalize_name u.getName ≠ "") →
    (∃ t, (dedupLoop θ l acc seen s).1 = acc ++ t ∧ t.Sublist l) ∧
    (dedupLoop θ l acc seen s).1.Pairwise (fun u d => isDuplicate θ d u = false) ∧
    (∀ d ∈ (dedupLoop θ l acc seen s).1, normalize_name d.getName ≠ "") := by
  intro l
  induction l with
  | nil =>
    intro acc seen s _ hpw hne
    exact ⟨⟨[], by simp [dedupLoop], List.nil_sublist _⟩, hpw, hne⟩
  | cons doc ds ih =>
    intro acc seen s hseen hpw hne
    unfold dedupLoop
    by_cases hcap : MAX_DOCUMENTS ≤ acc.length
    · rw [if_pos hcap]
      exact ⟨⟨[], by simp, List.nil_sublist _⟩, hpw, hne⟩
    · rw [if_neg hcap]
      dsimp only
      by_cases hn : normalize_name doc.getName = ""
      · rw [if_pos hn]
        obtain ⟨⟨t, ht, hsub⟩, hpw', hne'⟩ := ih acc seen s hseen hpw hne
        exact ⟨⟨t, ht, hsub.cons doc⟩, hpw', hne'⟩
      · rw [if_neg hn]
        by_cases hmem : normalize_name doc.getName ∈ seen
        · rw [if_pos hmem]
          obtain ⟨⟨t, ht, hsub⟩, hpw', hne'⟩ := ih acc seen _ hseen hpw hne
          exact ⟨⟨t, ht, hsub.cons doc⟩, hpw', hne'⟩
        · rw [if_neg hmem]
          by_cases hany : acc.any (fun u => isDuplicate θ doc u) = true
          · rw [if_pos hany]
            obtain ⟨⟨t, ht, hsub⟩, hpw', hne'⟩ := ih acc seen _ hseen hpw hne
            exact ⟨⟨t, ht, hsub.cons doc⟩, hpw', hne'⟩
          · rw [if_neg hany]
            have hnodup : ∀ u ∈ acc, isDuplicate θ doc u = false := by
              intro u hu
              rcases hdup : isDuplicate θ doc u with _ | _
              · rfl
              · exact absurd (List.any_eq_true.mpr ⟨u, hu, hdup⟩) hany
            have hpw2 : (acc ++ [doc]).Pairwise
                (fun u d => isDuplicate θ d u = false) := by
              rw [List.pairwise_append]
              exact ⟨hpw, List.pairwise_singleton _ _,
                fun u hu d hd => by
                  rw [List.mem_singleton] at hd
                  subst hd
                  exact hnodup u hu⟩
            have hseen2 : seen ++ [normalize_name doc.getName] =
                (acc ++ [doc]).map (fun u => normalize_name u.getName) := by
              simp [hseen]
            have hne2 : ∀ u ∈ acc ++ [doc], normalize_name u.getName ≠ "" := by
              intro u hu
              rcases List.mem_append.mp hu with h | h
              · exact hne u h
              · rw [List.mem_singleton] at h
                subst h
                exact hn
            obtain ⟨⟨t, ht, hsub⟩, hpw', hne'⟩ := ih (acc ++ [doc]) _ s hseen2 hpw2 hne2
            refine ⟨⟨doc :: t, ?_, hsub.cons₂ doc⟩, hpw', hne'⟩
            rw [ht, List.append_assoc]
            rfl

/-- Second-pass behaviour: on a list of pairwise non-duplicate records
with non-empty normalized names that fits under the cap, the loop
accepts everything and leaves the statistics untouched. -/
theorem dedupLoop_all_accepted (θ : ℚ) :
    ∀ (l acc : List PyDoc) (seen : List String) (s : DedupStats),
    seen = acc.map (fun u => normalize_name u.getName) →
    acc.length + l.length ≤ MAX_DOCUMENTS →
    (∀ d ∈ l, normalize_name d.getName ≠ "") →
    (∀ d ∈ l, ∀ u ∈ acc, isDuplicate θ d u = false) →
    l.Pairwise (fun u d => isDuplicate θ d u = false) →
    dedupLoop θ l acc seen s = (acc ++ l, s) := by
  intro l
  induction l with
  | nil =>
    intro acc seen s _ _ _ _ _
    simp [dedupLoop]
  | cons doc ds ih =>
    intro acc seen s hseen hlen hname hcompat hpw
    unfold dedupLoop
    rw [if_neg (by simp at hlen; omega)]
    dsimp only
    rw [if_neg (hname doc (List.mem_cons_self doc ds))]
    have hmem : normalize_name doc.getName ∉ seen := by
      intro hin
      rw [hseen] at hin
      obtain ⟨u, hu, hun⟩ := List.mem_map.mp hin
      have : isDuplicate θ doc u = true := by
        unfold isDuplicate
        rw [hun]
        simp
      rw [hcompat doc (List.mem_cons_self doc ds) u hu] at this
      exact Bool.false_ne_true this
    rw [if_neg hmem]
    have hany : acc.any (fun u => isDuplicate θ doc u) = false := by
      rcases ha : acc.any (fun u => isDuplicate θ doc u) with _ | _
      · rfl
      · obtain ⟨u, hu, hdup⟩ := List.any_eq_true.mp ha
        rw [hcompat doc (List.mem_cons_self doc ds) u hu] at hdup
        exact absurd hdup (by simp)
    rw [if_neg (by simp [hany])]
    rw [List.pairwise_cons] at hpw
    have := ih (acc ++ [doc]) (seen ++ [normalize_name doc.getName]) s
      (by simp [hseen])
      (by simp at hlen ⊢; omega)
      (fun d hd => hname d (List.mem_cons_of_mem doc hd))
      (by
        intro d hd u hu
        rcases List.mem_append.mp hu with h | h
        · exact hcompat d (List.mem_cons_of_mem doc hd) u h
        · rw [List.mem_singleton] at h
          subst h
          exact hpw.1 d hd)
      hpw.2
    rw [this, List.append_assoc]
    rfl

theorem renumberFrom_map_getName (k : Nat) (l : List PyDoc) :
    (renumberFrom k l).map PyDoc.getName = l.map PyDoc.getName := by
  induction l generalizing k with
  | nil => rfl
  | cons d ds ih => simp [renumberFrom, ih]; rfl

theorem renumberFrom_idem (k : Nat) (l : List PyDoc) :
    renumberFrom k (renumberFrom k l) = renumberFrom k l := by
  induction l generalizing k with
  | nil => rfl
  | cons d ds ih => simp [renumberFrom, ih]

theorem renumberFrom_pairwise (θ : ℚ) (l : List PyDoc) (k : Nat)
    (h : l.Pairwise (fun u d => isDuplicate θ d u = false)) :
    (renumberFrom k l).Pairwise (fun u d => isDuplicate θ d u = false) := by
  induction l generalizing k with
  | nil => exact List.Pairwise.nil
  | cons d ds ih =>
    rw [List.pairwise_cons] at h
    rw [renumberFrom, List.pairwise_cons]
    refine ⟨?_, ih (k + 1) h.2⟩
    intro y hy
    have hyn : y.getName ∈ (renumberFrom (k + 1) ds).map PyDoc.getName :=
      List.mem_map_of_mem _ hy
    rw [renumberFrom_map_getName] at hyn
    obtain ⟨z, hz, hzy⟩ := List.mem_map.mp hyn
    rw [isDuplicate_name_congr θ y z _
      ({ d with id := some ("doc_" ++ toString k) }) hzy.symm rfl]
    exact h.1 z hz

theorem renumberFrom_names_ne (l : List PyDoc) (k : Nat)
    (h : ∀ d ∈ l, normalize_name d.getName ≠ "") :
    ∀ d ∈ renumberFrom k l, normalize_name d.getName ≠ "" := by
  intro d hd
  have hdn : d.getName ∈ (renumberFrom k l).map PyDoc.getName :=
    List.mem_map_of_mem _ hd
  rw [renumberFrom_map_getName] at hdn
  obtain ⟨z, hz, hzd⟩ := List.mem_map.mp hdn
  rw [← hzd]
  exact h z hz

theorem deduplicate_nil (θ : ℚ) (s0 : DedupStats) (a : JAnalysis)
    (h : a.required_documents = []) : deduplicate θ s0 a = a := by
  unfold deduplicate
  dsimp only
  rw [if_pos (by simp [h])]

theorem deduplicate_docs (θ : ℚ) (s0 : DedupStats) (a : JAnalysis)
    (h : a.required_documents ≠ []) :
    (deduplicate θ s0 a).required_documents =
      renumberFrom 1 (dedupLoop θ a.required_documents [] []
        { s0 with total_input := a.required_documents.length }).1 := by
  unfold deduplicate
  dsimp only
  rw [if_neg (by simpa using h)]

/-- Claim C5 counterexample: on an input with one duplicate, the full
analysis dict is not a fixed point of `deduplicate` — the emitted
`deduplication_stats` of the second run (`total_input = 1`,
`duplicates_removed = 0`) differ from the first (`total_input = 2`,
`duplicates_removed = 1`). -/
theorem claim_C5_counterexample :
    deduplicate (17/20) initStats
        (deduplicate (17/20) initStats
          { required_documents := [{ name := some "a" }, { name := some "a" }] }) ≠
      deduplicate (17/20) initStats
        { required_documents := [{ name := some "a" }, { name := some "a" }] } := by
  decide

/-- Claim C5 (amended): `deduplicate` is idempotent on the
`required_documents` list — re-running it on its own output returns
exactly the same records, ids included — though the emitted
`deduplication_stats` describe each call's own input and therefore
differ as soon as the first call dropped anything. -/
theorem claim_C5_idempotent_records (θ : ℚ) (a : JAnalysis) :
    (deduplicate θ initStats (deduplicate θ initStats a)).required_documents =
      (deduplicate θ initStats a).required_documents := by
  by_cases he : a.required_documents = []
  · rw [deduplicate_nil θ initStats a he, deduplicate_nil θ initStats a he]
  · obtain ⟨⟨t, ht, hsub⟩, hpw, hne⟩ := dedupLoop_invariant θ a.required_documents [] []
      { initStats with total_input := a.required_documents.length } rfl
      List.Pairwise.nil (by simp)
    rw [List.nil_append] at ht
    have hd1 : (deduplicate θ initStats a).required_documents = renumberFrom 1 t := by
      rw [deduplicate_docs θ initStats a he, ht]
    by_cases hy : renumberFrom 1 t = []
    · rw [deduplicate_nil θ initStats _ (by rw [hd1, hy])]
    · have hlen : t.length ≤ MAX_DOCUMENTS := by
        have := dedupLoop_length_le θ a.required_documents [] []
          { initStats with total_input := a.required_documents.length }
          (by simp [MAX_DOCUMENTS])
        rw [ht] at this
        exact this
      have hall := dedupLoop_all_accepted θ (renumberFrom 1 t) [] []
        { initStats with total_input := (renumberFrom 1 t).length } rfl
        (by simpa [renumberFrom_length] using hlen)
        (renumberFrom_names_ne t 1 (fun d hd => hne d (by rw [ht]; exact hd)))
        (fun d _ u hu => absurd hu (List.not_mem_nil u))
        (renumberFrom_pairwise θ t 1 (by rw [ht] at hpw; exact hpw))
      rw [deduplicate_docs θ initStats _ (by rw [hd1]; exact hy), hd1, hall,
        List.nil_append, renumberFrom_idem]

/-- Projection of a list entry to its dict record, when it is one. -/
def entryDoc : PyEntry → Option PyDoc
  | .obj d => some d
  | .other => none

/-- Invariant of `_deduplicate_documents`: the output extends the
accumulator by a sublist of the input's dict entries (first wins, no
eviction), and every pair of kept records has distinct normalized names
with `SequenceMatcher` ratio at most — not strictly below — the 0.85
threshold. -/
theorem dedupAnalyzerLoop_invariant :
    ∀ (l : List PyEntry) (acc : List PyDoc) (seen : List String),
    seen = acc.map (fun u => normalizeAnalyzer u.getName) →
    acc.Pairwise (fun u d =>
      normalizeAnalyzer d.getName ≠ normalizeAnalyzer u.getName ∧
      seqMatchScore (normalizeAnalyzer d.getName) (normalizeAnalyzer u.getName) ≤
        SIMILARITY_THRESHOLD) →
    (∃ t, dedupAnalyzerLoop l acc seen = acc ++ t ∧
      t.Sublist (l.filterMap entryDoc)) ∧
    (dedupAnalyzerLoop l acc seen).Pairwise (fun u d =>
      normalizeAnalyzer d.getName ≠ normalizeAnalyzer u.getName ∧
      seqMatchScore (normalizeAnalyzer d.getName) (normalizeAnalyzer u.getName) ≤
        SIMILARITY_THRESHOLD) := by
  intro l
  induction l with
  | nil =>
    intro acc seen _ hpw
    exact ⟨⟨[], by simp [dedupAnalyzerLoop], List.nil_sublist _⟩, hpw⟩
  | cons e rest ih =>
    intro acc seen hseen hpw
    cases e with
    | other =>
      obtain ⟨⟨t, ht, hsub⟩, hpw'⟩ := ih acc seen hseen hpw
      exact ⟨⟨t, by rw [dedupAnalyzerLoop]; exact ht, by
        simpa [entryDoc] using hsub⟩, by rw [dedupAnalyzerLoop]; exact hpw'⟩
    | obj d =>
      have hfm : (PyEntry.obj d :: rest).filterMap entryDoc =
          d :: rest.filterMap entryDoc := by simp [entryDoc]
      cases hn : d.name with
      | none =>
        obtain ⟨⟨t, ht, hsub⟩, hpw'⟩ := ih acc seen hseen hpw
        refine ⟨⟨t, ?_, ?_⟩, ?_⟩
        · rw [dedupAnalyzerLoop, hn]
          exact ht
        · rw [hfm]
          exact hsub.cons d
        · rw [dedupAnalyzerLoop, hn]
          exact hpw'
      | some nm =>
        have hgn : d.getName = nm := by rw [PyDoc.getName, hn]; rfl
        by_cases h0 : normalizeAnalyzer nm = ""
        · obtain ⟨⟨t, ht, hsub⟩, hpw'⟩ := ih acc seen hseen hpw
          refine ⟨⟨t, ?_, ?_⟩, ?_⟩
          · rw [dedupAnalyzerLoop, hn]
            dsimp only
            rw [if_pos h0]
            exact ht
          · rw [hfm]
            exact hsub.cons d
          · rw [dedupAnalyzerLoop, hn]
            dsimp only
            rw [if_pos h0]
            exact hpw'
        · by_cases hmem : normalizeAnalyzer nm ∈ seen
          · obtain ⟨⟨t, ht, hsub⟩, hpw'⟩ := ih acc seen hseen hpw
            refine ⟨⟨t, ?_, ?_⟩, ?_⟩
            · rw [dedupAnalyzerLoop, hn]
              dsimp only
              rw [if_neg h0, if_pos hmem]
              exact ht
            · rw [hfm]
              exact hsub.cons d
            · rw [dedupAnalyzerLoop, hn]
              dsimp only
              rw [if_neg h0, if_pos hmem]
              exact hpw'
          · by_cases hany : seen.any
                (fun ex => SIMILARITY_THRESHOLD < seqMatchScore (normalizeAnalyzer nm) ex) =
                  true
            · obtain ⟨⟨t, ht, hsub⟩, hpw'⟩ := ih acc seen hseen hpw
              refine ⟨⟨t, ?_, ?_⟩, ?_⟩
              · rw [dedupAnalyzerLoop, hn]
                dsimp only
                rw [if_neg h0, if_neg hmem, if_pos hany]
                exact ht
              · rw [hfm]
                exact hsub.cons d
              · rw [dedupAnalyzerLoop, hn]
                dsimp only
                rw [if_neg h0, if_neg hmem, if_pos hany]
                exact hpw'
            · have hrel : ∀ u ∈ acc,
                  normalizeAnalyzer d.getName ≠ normalizeAnalyzer u.getName ∧
                  seqMatchScore (normalizeAnalyzer d.getName)
                      (normalizeAnalyzer u.getName) ≤ SIMILARITY_THRESHOLD := by
                intro u hu
                have hus : normalizeAnalyzer u.getName ∈ seen := by
                  rw [hseen]
                  exact List.mem_map_of_mem _ hu
                constructor
                · rw [hgn]
                  intro hequ
                  rw [hequ] at hmem
                  exact hmem hus
                · rw [hgn]
                  by_contra hgt
                  rw [not_le] at hgt
                  exact absurd (List.any_eq_true.mpr
                    ⟨normalizeAnalyzer u.getName, hus, by
                      simpa using hgt⟩) hany
              have hpw2 : (acc ++ [d]).Pairwise (fun u d' =>
                  normalizeAnalyzer d'.getName ≠ normalizeAnalyzer u.getName ∧
                  seqMatchScore (normalizeAnalyzer d'.getName)
                      (normalizeAnalyzer u.getName) ≤ SIMILARITY_THRESHOLD) := by
                rw [List.pairwise_append]
                exact ⟨hpw, List.pairwise_singleton _ _,
                  fun u hu d' hd' => by
                    rw [List.mem_singleton] at hd'
                    subst hd'
                    exact hrel u hu⟩
              have hseen2 : seen ++ [normalizeAnalyzer nm] =
                  (acc ++ [d]).map (fun u => normalizeAnalyzer u.getName) := by
                simp [hseen, hgn]
              obtain ⟨⟨t, ht, hsub⟩, hpw'⟩ := ih (acc ++ [d]) _ hseen2 hpw2
              refine ⟨⟨d :: t, ?_, ?_⟩, ?_⟩
              · rw [dedupAnalyzerLoop, hn]
                dsimp only
                rw [if_neg h0, if_neg hmem, if_neg hany, ht, List.append_assoc]
                rfl
              · rw [hfm]
                exact hsub.cons₂ d
              · rw [dedupAnalyzerLoop, hn]
                dsimp only
                rw [if_neg h0, if_neg hmem, if_neg hany]
                exact hpw'

set_option maxRecDepth 20000 in
/-- Claim C4 counterexample: two 20-character names whose
`SequenceMatcher` ratio is exactly the 0.85 threshold.  The claim says a
candidate at similarity equal to the threshold is dropped, but
`_deduplicate_documents` compares with strict `>` and keeps both. -/
theorem claim_C4_counterexample :
    (dedupAnalyzer
        [.obj { name := some "aaaaaaaaaaaaaaaaabbb" },
         .obj { name := some "aaaaaaaaaaaaaaaaaccc" }]).length = 2 ∧
    seqMatchScore (normalizeAnalyzer "aaaaaaaaaaaaaaaaaccc")
        (normalizeAnalyzer "aaaaaaaaaaaaaaaaabbb") = SIMILARITY_THRESHOLD := by
  have hnA : normalizeAnalyzer "aaaaaaaaaaaaaaaaabbb" = "aaaaaaaaaaaaaaaaabbb" := by
    decide
  have hnC : normalizeAnalyzer "aaaaaaaaaaaaaaaaaccc" = "aaaaaaaaaaaaaaaaaccc" := by
    decide
  have hM : matchTotal 41 "aaaaaaaaaaaaaaaaaccc".toList
      "aaaaaaaaaaaaaaaaabbb".toList = 17 := by decide
  have hscore : seqMatchScore "aaaaaaaaaaaaaaaaaccc" "aaaaaaaaaaaaaaaaabbb" =
      SIMILARITY_THRESHOLD := by
    unfold seqMatchScore
    dsimp only
    rw [show ("aaaaaaaaaaaaaaaaaccc".toList.length +
        "aaaaaaaaaaaaaaaaabbb".toList.length) = 40 by decide]
    rw [hM]
    norm_num [SIMILARITY_THRESHOLD]
  refine ⟨?_, by rw [hnA, hnC]; exact hscore⟩
  show (dedupAnalyzerLoop
      [.obj { name := some "aaaaaaaaaaaaaaaaabbb" },
       .obj { name := some "aaaaaaaaaaaaaaaaaccc" }] [] []).length = 2
  rw [dedupAnalyzerLoop]
  dsimp only
  rw [hnA]
  rw [if_neg (by decide), if_neg (by simp), if_neg (by simp)]
  simp only [List.nil_append]
  rw [dedupAnalyzerLoop]
  dsimp only
  rw [hnC]
  rw [if_neg (by decide), if_neg (by decide), if_neg (by simp [hscore])]
  rw [dedupAnalyzerLoop]
  simp

/-- Claim C4 (amended): `DocumentDeduplicator` (deduplication.py) drops
a candidate whose similarity to an already-accepted record is greater
than **or equal to** the threshold and never evicts earlier records; in
`DocumentAnalyzer._deduplicate_documents` (analyzer.py) the comparison
is strict, so the kept records are only guaranteed pairwise ratio ≤
0.85 (equality attainable), likewise without eviction.  Both outputs
are sublists of their inputs and pairwise non-duplicates under the
respective comparison. -/
theorem claim_C4_threshold :
    (∀ (θ : ℚ) (s0 : DedupStats) (docs : List PyDoc),
      (dedupLoop θ docs [] [] s0).1.Sublist docs ∧
      (dedupLoop θ docs [] [] s0).1.Pairwise
        (fun u d => isDuplicate θ d u = false)) ∧
    (∀ entries : List PyEntry,
      (dedupAnalyzer entries).Sublist (entries.filterMap entryDoc) ∧
      (dedupAnalyzer entries).Pairwise (fun u d =>
        normalizeAnalyzer d.getName ≠ normalizeAnalyzer u.getName ∧
        seqMatchScore (normalizeAnalyzer d.getName)
            (normalizeAnalyzer u.getName) ≤ SIMILARITY_THRESHOLD)) := by
  constructor
  · intro θ s0 docs
    obtain ⟨⟨t, ht, hsub⟩, hpw, -⟩ := dedupLoop_invariant θ docs [] [] s0 rfl
      List.Pairwise.nil (by simp)
    rw [List.nil_append] at ht
    exact ⟨by rw [ht]; exact hsub, hpw⟩
  · intro entries
    obtain ⟨⟨t, ht, hsub⟩, hpw⟩ := dedupAnalyzerLoop_invariant entries [] [] rfl
      List.Pairwise.nil
    rw [List.nil_append] at ht
    unfold dedupAnalyzer
    exact ⟨by rw [ht]; exact hsub, hpw⟩

/-! ### Parser failure semantics -/

/-- Claim C1 counterexample: on model output with no JSON object,
`analyze` (src/src/analyzer.py) raises instead of returning normally,
and the degraded result of `analyze_documentation`
(src/backend/analyzer.py) carries no error tag at all. -/
theorem claim_C1_counterexample :
    analyze (fun _ => none) "large" "doc" "no json here" =
      .error "ValueError: JSON not found in model response" ∧
    (analyzeDocumentation (fun _ => none) "large" "json" "doc" "garbage").error =
      none := by
  constructor
  · rfl
  · rfl

/-- Claim C1 (amended): on model output that cannot be parsed,
`DocumentAnalyzer.analyze` (src/src/analyzer.py) re-raises the parse
error to the caller; `analyze_documentation` (src/backend/analyzer.py)
never raises, but its fully degraded JSON-mode result carries
`procurement_info: \x7b\x7d` and `required_documents: []` with **no**
error tag, while its tagged error path (`error: "analysis_failed"`,
e.g. for non-dict JSON) carries `required_documents: []` but no
`procurement_info` key — no path provides structure and tag together. -/
theorem claim_C1_parse_failure :
    (∀ (loads : String → Option PyParsed) (ms dt rt : String),
      pyStrip dt ≠ "" →
      (match extractJson rt with
       | none => True
       | some js => loads js = none ∨ loads js = some .nonDict) →
      ∃ e, analyze loads ms dt rt = .error e) ∧
    (∀ (loads : String → Option PyParsed) (ms dt raw : String),
      pyStrip dt ≠ "" → ms ≠ "small" →
      loads raw = none →
      (∀ g, extractFenced raw.toList = some g → loads (String.mk g) = none) →
      (∀ t, truncRepair raw = some t → loads t = none) →
      analyzeDocumentation loads ms "json" dt raw =
        { procurement_info := some {}, required_documents := some []
          total_count := some 0, model_size := some ms }) ∧
    (∀ (loads : String → Option PyParsed) (ms dt raw : String),
      pyStrip dt ≠ "" → ms ≠ "small" → loads raw = some .nonDict →
      analyzeDocumentation loads ms "json" dt raw =
        { error := some "analysis_failed", required_documents := some [] }) := by
  refine ⟨?_, ?_, ?_⟩
  · intro loads ms dt rt hdt hfail
    unfold analyze
    rw [if_neg hdt]
    cases hx : extractJson rt with
    | none => exact ⟨_, rfl⟩
    | some js =>
      rw [hx] at hfail
      dsimp only
      rcases hfail with hl | hl
      · rw [hl]
        exact ⟨_, rfl⟩
      · rw [hl]
        exact ⟨_, rfl⟩
  · intro loads ms dt raw hdt hms h1 h2 h3
    have hparse : parseJsonOutput loads raw =
        .pdict { procurement_info := some {}, required_documents := some [] } := by
      unfold parseJsonOutput
      rw [h1]
      cases hf : extractFenced raw.toList with
      | none =>
        dsimp only
        cases ht : truncRepair raw with
        | none => rfl
        | some t =>
          dsimp only
          rw [h3 t ht]
      | some g =>
        dsimp only
        rw [h2 g hf]
        dsimp only
        cases ht : truncRepair raw with
        | none => rfl
        | some t =>
          dsimp only
          rw [h3 t ht]
    unfold analyzeDocumentation
    rw [if_neg hdt, if_neg (by simp [hms]), hparse]
    rfl
  · intro loads ms dt raw hdt hms hl
    have hparse : parseJsonOutput loads raw = .nonDict := by
      unfold parseJsonOutput
      rw [hl]
    unfold analyzeDocumentation
    rw [if_neg hdt, if_neg (by simp [hms]), hparse]

/-- Claim C1 witness: the amended behaviour at concrete inputs — the
raising path of `analyze`, the untagged degraded dict, and the tagged
dict without `procurement_info`. -/
theorem claim_C1_witness :
    (∃ e, analyze (fun _ => none) "large" "x" "no json" = .error e) ∧
    analyzeDocumentation (fun _ => none) "large" "json" "x" "garbage" =
      { procurement_info := some {}, required_documents := some []
        total_count := some 0, model_size := some "large" } ∧
    analyzeDocumentation (fun _ => some .nonDict) "large" "json" "x" "garbage" =
      { error := some "analysis_failed", required_documents := some [] } :=
  ⟨claim_C1_parse_failure.1 (fun _ => none) "large" "x" "no json"
      (by decide) (by trivial),
   claim_C1_parse_failure.2.1 (fun _ => none) "large" "x" "garbage"
      (by decide) (by decide) rfl
      (fun g hg => by
        rw [show extractFenced "garbage".toList = none by decide] at hg)
      (fun t ht => by
        rw [show truncRepair "garbage" = none by decide] at ht),
   claim_C1_parse_failure.2.2 (fun _ => some .nonDict) "large" "x" "garbage"
      (by decide) (by decide) rfl⟩

end Purchase
